import Mathlib

/-!
Verification development for the hedera-did-sdk-js event-sourced DID
resolution engine.  TypeScript sources are shallowly embedded: JS strings
that the code splits or indexes are modelled as lists of characters, byte
arrays as lists of naturals below 256, thrown exceptions as the error
branch of an Except computation, and JSON values as an inductive type.
External libraries (base58 codecs, the Hedera SDK, JWK math) are modelled
as the algorithms they implement, and are marked as such in doc comments.
-/

set_option maxHeartbeats 1000000

/-! ## JSON values and JavaScript helpers -/

/-- Model of a parsed JSON value (arrays are not needed by the embedded
code paths).  Object fields keep insertion order, as JS objects do. -/
inductive Json where
  | null : Json
  | bool (b : Bool) : Json
  | num (n : Int) : Json
  | str (s : String) : Json
  | obj (fields : List (String × Json)) : Json

/-- JS truthiness of a value. -/
def Json.truthy : Json → Bool
  | .null => false
  | .bool b => b
  | .num n => n != 0
  | .str s => !s.isEmpty
  | .obj _ => true

/-- JS truthiness where `none` stands for `undefined`. -/
def truthyOpt : Option Json → Bool
  | none => false
  | some j => j.truthy

/-- Field access `t?.k` with optional chaining: `undefined` (`none`) on a
missing base object, on `null`, or on a primitive. -/
def jsField (j : Json) (k : String) : Option Json :=
  match j with
  | .obj fields => fields.lookup k
  | _ => none

/-- Plain member access `t[k]`, which throws a TypeError when the base is
`null` (the parsed payload can be JSON `null`). -/
def jsIndex (j : Json) (k : String) : Except String (Option Json) :=
  match j with
  | .null => .error "TypeError: cannot read properties of null"
  | .obj fields => .ok (fields.lookup k)
  | _ => .ok none

/-- Model of `String.prototype.split` with a one-character separator, on
strings as char lists: always returns at least one (possibly empty) piece. -/
def jsSplit (sep : Char) : List Char → List (List Char)
  | [] => [[]]
  | c :: rest =>
    let r := jsSplit sep rest
    if c = sep then
      [] :: r
    else
      match r with
      | h :: t => (c :: h) :: t
      | [] => [[c]]

/-! ## Positional base conversion

The base58 libraries used by the repository (base58-js in
src/utils/hashing.ts, multiformats base58btc in src/utils/crypto-utils.ts)
implement the base58btc algorithm: leading zero bytes become leading
digit-zero characters, the remaining bytes are read as one big-endian
number and rewritten in base 58.  The number/digit core is modelled here. -/

/-- Little-endian digits of `n` in base `b`; `fuel` bounds the recursion
and is always instantiated with `n` itself. -/
def toBaseLE (b : Nat) : Nat → Nat → List Nat
  | 0, _ => []
  | fuel + 1, n => if n = 0 then [] else n % b :: toBaseLE b fuel (n / b)

/-- Value of a little-endian digit list in base `b`. -/
def ofBaseLE (b : Nat) : List Nat → Nat
  | [] => 0
  | d :: ds => d + b * ofBaseLE b ds

/-- Value of a big-endian digit list in base `b`, as the codecs fold it. -/
def evalBaseBE (b : Nat) (ds : List Nat) : Nat :=
  ds.foldl (fun acc d => acc * b + d) 0

theorem toBaseLE_zero (b : Nat) : ∀ fuel, toBaseLE b fuel 0 = [] := by
  intro fuel
  cases fuel <;> simp [toBaseLE]

theorem ofBaseLE_toBaseLE (b : Nat) (hb : 2 ≤ b) :
    ∀ fuel n, n ≤ fuel → ofBaseLE b (toBaseLE b fuel n) = n := by
  intro fuel
  induction fuel with
  | zero =>
    intro n hn
    interval_cases n
    simp [toBaseLE, ofBaseLE]
  | succ fuel ih =>
    intro n hn
    by_cases h0 : n = 0
    · simp [h0, toBaseLE, ofBaseLE]
    · have hdiv : n / b ≤ fuel := by
        have h1 : n / b < n := Nat.div_lt_self (Nat.pos_of_ne_zero h0) (by omega)
        omega
      simp only [toBaseLE, if_neg h0, ofBaseLE, ih (n / b) hdiv]
      exact Nat.mod_add_div n b

theorem toBaseLE_lt (b : Nat) (hb : 2 ≤ b) :
    ∀ fuel n d, d ∈ toBaseLE b fuel n → d < b := by
  intro fuel
  induction fuel with
  | zero => intro n d hd; simp [toBaseLE] at hd
  | succ fuel ih =>
    intro n d hd
    by_cases h0 : n = 0
    · simp [h0, toBaseLE] at hd
    · simp only [toBaseLE, if_neg h0, List.mem_cons] at hd
      rcases hd with h | h
      · subst h; exact Nat.mod_lt _ (by omega)
      · exact ih _ _ h

theorem toBaseLE_eq_nil (b : Nat) (hb : 2 ≤ b) :
    ∀ fuel n, n ≤ fuel → toBaseLE b fuel n = [] → n = 0 := by
  intro fuel n hn hnil
  by_contra h0
  cases fuel with
  | zero => omega
  | succ fuel => simp [toBaseLE, h0] at hnil

theorem toBaseLE_getLast?_ne_zero (b : Nat) (hb : 2 ≤ b) :
    ∀ fuel n, n ≤ fuel → (toBaseLE b fuel n).getLast? ≠ some 0 := by
  intro fuel
  induction fuel with
  | zero =>
    intro n hn
    interval_cases n
    simp [toBaseLE]
  | succ fuel ih =>
    intro n hn
    by_cases h0 : n = 0
    · simp [h0, toBaseLE]
    · have hdiv : n / b ≤ fuel := by
        have h1 : n / b < n := Nat.div_lt_self (Nat.pos_of_ne_zero h0) (by omega)
        omega
      simp only [toBaseLE, if_neg h0]
      rcases hrec : toBaseLE b fuel (n / b) with _ | ⟨d, ds⟩
      · have hq : n / b = 0 := toBaseLE_eq_nil b hb fuel (n / b) hdiv hrec
        have hlt : n < b := by
          rcases Nat.lt_or_ge n b with h | h
          · exact h
          · exact absurd hq (by
              have := Nat.div_pos h (by omega)
              omega)
        simp [List.getLast?, Nat.mod_eq_of_lt hlt]
        exact h0
      · rw [← hrec]
        have := ih (n / b) hdiv
        intro hcontra
        apply this
        rw [hrec] at hcontra ⊢
        simpa [List.getLast?_cons_cons] using hcontra

theorem ofBaseLE_pos (b : Nat) (hb : 2 ≤ b) :
    ∀ L : List Nat, L ≠ [] → L.getLast? ≠ some 0 → 0 < ofBaseLE b L := by
  intro L
  induction L with
  | nil => intro h; simp at h
  | cons d ds ih =>
    intro _ hlast
    cases ds with
    | nil =>
      simp [List.getLast?] at hlast
      simp [ofBaseLE]
      omega
    | cons e es =>
      have hlast2 : (e :: es).getLast? ≠ some 0 := by
        simpa [List.getLast?_cons_cons] using hlast
      have hw := ih (by simp) hlast2
      have hbw : 0 < b * ofBaseLE b (e :: es) := Nat.mul_pos (by omega) hw
      have hexp : ofBaseLE b (d :: e :: es) = d + b * ofBaseLE b (e :: es) := rfl
      rw [hexp]
      omega

theorem toBaseLE_ofBaseLE (b : Nat) (hb : 2 ≤ b) :
    ∀ L : List Nat, (∀ d ∈ L, d < b) → L.getLast? ≠ some 0 →
      ∀ fuel, ofBaseLE b L ≤ fuel → toBaseLE b fuel (ofBaseLE b L) = L := by
  intro L
  induction L with
  | nil => intro _ _ fuel _; simpa [ofBaseLE] using toBaseLE_zero b fuel
  | cons d ds ih =>
    intro hlt hlast fuel hfuel
    have hd : d < b := hlt d (by simp)
    cases ds with
    | nil =>
      have hd0 : d ≠ 0 := by simpa [List.getLast?] using hlast
      have hval : ofBaseLE b [d] = d := by simp [ofBaseLE]
      rw [hval] at hfuel ⊢
      cases fuel with
      | zero => omega
      | succ fuel =>
        simp only [toBaseLE, if_neg hd0]
        rw [Nat.mod_eq_of_lt hd, Nat.div_eq_of_lt hd]
        simp [toBaseLE_zero]
    | cons e es =>
      have hlast2 : (e :: es).getLast? ≠ some 0 := by
        simpa [List.getLast?_cons_cons] using hlast
      have hpos : 0 < ofBaseLE b (e :: es) := ofBaseLE_pos b hb _ (by simp) hlast2
      have hval : ofBaseLE b (d :: e :: es) = d + b * ofBaseLE b (e :: es) := rfl
      set w := ofBaseLE b (e :: es) with hw
      have hbw : 0 < b * w := Nat.mul_pos (by omega) hpos
      have hvpos : 0 < d + b * w := by omega
      cases fuel with
      | zero => omega
      | succ fuel =>
        simp only [toBaseLE, hval]
        rw [if_neg (by omega)]
        have hmod : (d + b * w) % b = d := by
          rw [Nat.add_mul_mod_self_left, Nat.mod_eq_of_lt hd]
        have hdivq : (d + b * w) / b = w := by
          rw [Nat.add_mul_div_left _ _ (by omega : 0 < b), Nat.div_eq_of_lt hd]
          omega
        have hwfuel : w ≤ fuel := by
          have h2 : 2 * w ≤ b * w := Nat.mul_le_mul_right w hb
          simp only [hval] at hfuel
          omega
        rw [hmod, hdivq, ih (fun x hx => hlt x (by simp [hx])) hlast2 fuel hwfuel]

theorem ofBaseLE_eq_evalBaseBE_reverse (b : Nat) :
    ∀ L : List Nat, ofBaseLE b L = evalBaseBE b L.reverse := by
  have key : ∀ (L : List Nat) (acc : Nat),
      (L.reverse).foldl (fun a d => a * b + d) acc = acc * b ^ L.length + ofBaseLE b L := by
    intro L
    induction L with
    | nil => intro acc; simp [ofBaseLE]
    | cons d ds ih =>
      intro acc
      simp only [List.reverse_cons, List.foldl_append, List.foldl_cons, List.foldl_nil,
        ih, ofBaseLE, List.length_cons]
      ring
  intro L
  simpa [evalBaseBE] using (key L 0).symm

theorem ofBaseLE_append_zeros (b : Nat) :
    ∀ (L : List Nat) (k : Nat), ofBaseLE b (L ++ List.replicate k 0) = ofBaseLE b L := by
  have hz : ∀ k, ofBaseLE b (List.replicate k 0) = 0 := by
    intro k
    induction k with
    | zero => simp [ofBaseLE]
    | succ k ih => simp [List.replicate_succ, ofBaseLE, ih]
  intro L
  induction L with
  | nil => intro k; simp [ofBaseLE, hz]
  | cons d ds ih => intro k; simp [ofBaseLE, ih]

/-! ## Base58 / multibase codecs (src/utils/hashing.ts)

Models the external base58-js and multiformats base58btc capabilities used
by Hashing.base58 and by crypto-utils: the base58btc algorithm maps each
leading zero byte to a leading digit-one character and rewrites the
remaining big-endian value in base 58.  The repository-owned part is the
multibase layer: a literal z prefix on encode, a hard error when the
prefix is absent on decode. -/

def b58Digits : List Char :=
  ['1', '2', '3', '4', '5', '6', '7', '8', '9',
   'A', 'B', 'C', 'D', 'E', 'F', 'G', 'H', 'J', 'K', 'L', 'M', 'N',
   'P', 'Q', 'R', 'S', 'T', 'U', 'V', 'W', 'X', 'Y', 'Z',
   'a', 'b', 'c', 'd', 'e', 'f', 'g', 'h', 'i', 'j', 'k', 'm', 'n',
   'o', 'p', 'q', 'r', 's', 't', 'u', 'v', 'w', 'x', 'y', 'z']

/-- Character for one base58 digit. -/
def b58Char (d : Nat) : Char := b58Digits.getD d '1'

/-- Digit value of one base58 character, `none` for a non-alphabet char. -/
def b58Index (c : Char) : Option Nat := b58Digits.findIdx? (fun x => x = c)

/-- Model of base58-js binary_to_base58 / multiformats base58 encoding. -/
def binaryToBase58 (data : List Nat) : List Char :=
  let n := evalBaseBE 256 data
  List.replicate (data.takeWhile (fun x => x == 0)).length '1' ++
    ((toBaseLE 58 n n).reverse.map b58Char)

/-- Model of base58-js base58_to_binary / multiformats base58 decoding
(the model rejects every non-alphabet character). -/
def base58ToBinary (s : List Char) : Except String (List Nat) :=
  if s.all (fun c => (b58Index c).isSome) then
    let n := s.foldl (fun acc c => acc * 58 + ((b58Index c).getD 0)) 0
    .ok (List.replicate (s.takeWhile (fun c => c == '1')).length 0 ++
      (toBaseLE 256 n n).reverse)
  else .error "Invalid base58 character"

/-- Hashing.multibase.encode: base58 with a literal z prefix. -/
def multibaseEncode (data : List Nat) : List Char := 'z' :: binaryToBase58 data

/-- Hashing.multibase.decode: requires the literal z prefix, then base58
decodes the remainder. -/
def multibaseDecode (s : List Char) : Except String (List Nat) :=
  match s with
  | c :: rest =>
    if c = 'z' then base58ToBinary rest
    else .error "Invalid multibase encoding. Expected prefix 'z'."
  | [] => .error "Invalid multibase encoding. Expected prefix 'z'."

theorem b58Index_b58Char : ∀ d, d < 58 → b58Index (b58Char d) = some d := by decide

theorem b58Index_one : b58Index '1' = some 0 := by decide

theorem b58Char_ne_one : ∀ d, d < 58 → d ≠ 0 → b58Char d ≠ '1' := by decide

theorem mem_of_getLast?_eq {α : Type} :
    ∀ (l : List α) (a : α), l.getLast? = some a → a ∈ l := by
  intro l
  induction l with
  | nil => intro a h; simp [List.getLast?] at h
  | cons x xs ih =>
    intro a h
    cases xs with
    | nil => simp [List.getLast?] at h; simp [h]
    | cons y ys =>
      rw [List.getLast?_cons_cons] at h
      exact List.mem_cons_of_mem x (ih a h)

theorem takeWhile_replicate_append {α : Type} (p : α → Bool) (a : α) (hp : p a = true) :
    ∀ (k : Nat) (l : List α),
      List.takeWhile p (List.replicate k a ++ l) = List.replicate k a ++ List.takeWhile p l := by
  intro k
  induction k with
  | zero => intro l; simp
  | succ k ih => intro l; simp [List.replicate_succ, List.takeWhile_cons, hp, ih l]

theorem foldl_b58_replicate_one :
    ∀ k : Nat, List.foldl (fun acc c => acc * 58 + ((b58Index c).getD 0)) 0
      (List.replicate k '1') = 0 := by
  intro k
  induction k with
  | zero => simp
  | succ k ih => simpa [List.replicate_succ, b58Index_one] using ih

theorem foldl_b58_map (L : List Nat) (hL : ∀ d ∈ L, d < 58) :
    ∀ acc : Nat, List.foldl (fun a c => a * 58 + ((b58Index c).getD 0)) acc (L.map b58Char) =
      List.foldl (fun a d => a * 58 + d) acc L := by
  induction L with
  | nil => intro acc; simp
  | cons d ds ih =>
    intro acc
    have hd : d < 58 := hL d (by simp)
    simp only [List.map_cons, List.foldl_cons, b58Index_b58Char d hd, Option.getD_some]
    exact ih (fun x hx => hL x (by simp [hx])) _

theorem takeWhile_eq_nil_of_head? {α : Type} (p : α → Bool) (l : List α)
    (h : ∀ c, l.head? = some c → p c = false) : l.takeWhile p = [] := by
  cases l with
  | nil => rfl
  | cons x xs => simp [List.takeWhile_cons, h x rfl]

theorem dropWhile_head?_ne_zero :
    ∀ (l : List Nat) (d : Nat), (l.dropWhile (fun x => x == 0)).head? = some d → d ≠ 0 := by
  intro l
  induction l with
  | nil => intro d h; simp [List.dropWhile] at h
  | cons x xs ih =>
    intro d h
    by_cases hx : x = 0
    · rw [List.dropWhile_cons] at h
      simp only [hx] at h
      exact ih d (by simpa using h)
    · rw [List.dropWhile_cons] at h
      simp only [beq_iff_eq, hx, if_neg] at h
      simp [List.head?] at h
      omega

/-- Core roundtrip of the base58btc algorithm on byte sequences. -/
theorem base58_roundtrip (data : List Nat) (hdata : ∀ b ∈ data, b < 256) :
    base58ToBinary (binaryToBase58 data) = .ok data := by
  classical
  set z := (data.takeWhile (fun x => x == 0)).length with hz
  set rest := data.dropWhile (fun x => x == 0) with hrest
  have hsplit : List.replicate z 0 ++ rest = data := by
    have h1 : data.takeWhile (fun x => x == 0) = List.replicate z 0 := by
      rw [List.eq_replicate_iff]
      refine ⟨rfl, ?_⟩
      intro b hb
      have := List.mem_takeWhile_imp hb
      simpa using this
    calc List.replicate z 0 ++ rest
        = data.takeWhile (fun x => x == 0) ++ data.dropWhile (fun x => x == 0) := by
          rw [h1]
      _ = data := List.takeWhile_append_dropWhile _ _
  set n := evalBaseBE 256 data with hn
  have hnval : n = ofBaseLE 256 rest.reverse := by
    have h1 : ofBaseLE 256 data.reverse = evalBaseBE 256 data := by
      simpa using ofBaseLE_eq_evalBaseBE_reverse 256 data.reverse
    have h2 : data.reverse = rest.reverse ++ List.replicate z 0 := by
      rw [← hsplit]
      simp [List.reverse_append]
    rw [hn, ← h1, h2, ofBaseLE_append_zeros]
  have hrest_lt : ∀ d ∈ rest.reverse, d < 256 := by
    intro d hd
    apply hdata
    rw [← hsplit]
    have : d ∈ rest := by simpa using hd
    simp [this]
  have hrest_last : rest.reverse.getLast? ≠ some 0 := by
    rw [List.getLast?_reverse]
    intro hcontra
    exact dropWhile_head?_ne_zero data 0 hcontra rfl
  have hdigits_lt : ∀ d ∈ toBaseLE 58 n n, d < 58 :=
    fun d hd => toBaseLE_lt 58 (by omega) n n d hd
  have hdigits_last : (toBaseLE 58 n n).getLast? ≠ some 0 :=
    toBaseLE_getLast?_ne_zero 58 (by omega) n n (le_refl n)
  -- the encoded character list and its two parts
  set digitChars := (toBaseLE 58 n n).reverse.map b58Char with hdc
  have henc : binaryToBase58 data = List.replicate z '1' ++ digitChars := by
    simp [binaryToBase58, hdc, hz, hn]
  -- every character is in the alphabet
  have hvalid : (List.replicate z '1' ++ digitChars).all (fun c => (b58Index c).isSome) = true := by
    rw [List.all_append, Bool.and_eq_true]
    refine ⟨?_, ?_⟩
    · rw [List.all_eq_true]
      intro c hc
      have : c = '1' := by simpa using (List.eq_of_mem_replicate hc)
      simp [this, b58Index_one]
    · rw [List.all_eq_true]
      intro c hc
      rcases List.mem_map.1 hc with ⟨d, hd, hcd⟩
      have : d < 58 := hdigits_lt d (by simpa using hd)
      rw [← hcd, b58Index_b58Char d this]
      rfl
  -- the leading digit-one run has exactly length z
  have hheadfact : ∀ c, digitChars.head? = some c → (c == '1') = false := by
    intro c h1
    rw [hdc, List.head?_map, List.head?_reverse] at h1
    rcases hlast : (toBaseLE 58 n n).getLast? with _ | d
    · rw [hlast] at h1; simp at h1
    · rw [hlast] at h1
      simp at h1
      have hd58 : d < 58 :=
        hdigits_lt d (mem_of_getLast?_eq _ d hlast)
      have hd0 : d ≠ 0 := by
        intro h0
        rw [h0] at hlast
        exact hdigits_last hlast
      have hne := b58Char_ne_one d hd58 hd0
      have hcd : c = b58Char d := h1.symm
      simp [hcd, hne]
  have hhead : List.takeWhile (fun c => c == '1') digitChars = [] :=
    takeWhile_eq_nil_of_head? _ digitChars hheadfact
  have htake : (List.takeWhile (fun c => c == '1')
      (List.replicate z '1' ++ digitChars)).length = z := by
    rw [takeWhile_replicate_append (fun c => c == '1') '1' (by simp) z digitChars, hhead]
    simp
  -- the folded numeric value is n again
  have hfold : (List.replicate z '1' ++ digitChars).foldl
      (fun acc c => acc * 58 + ((b58Index c).getD 0)) 0 = n := by
    rw [List.foldl_append, foldl_b58_replicate_one, hdc]
    rw [foldl_b58_map _ (fun d hd => hdigits_lt d (by simpa using hd))]
    have h1 : List.foldl (fun a d => a * 58 + d) 0 (toBaseLE 58 n n).reverse =
        evalBaseBE 58 (toBaseLE 58 n n).reverse := rfl
    rw [h1, ← ofBaseLE_eq_evalBaseBE_reverse]
    exact ofBaseLE_toBaseLE 58 (by omega) n n (le_refl n)
  -- the byte reconstruction returns rest
  have hbytes : toBaseLE 256 n n = rest.reverse := by
    have h := toBaseLE_ofBaseLE 256 (by omega) rest.reverse hrest_lt hrest_last n
      (le_of_eq hnval.symm)
    rw [← hnval] at h
    exact h
  rw [henc]
  unfold base58ToBinary
  rw [if_pos hvalid]
  simp only [hfold, htake, hbytes, List.reverse_reverse]
  rw [hsplit]

/-- C7: multibaseDecode inverts multibaseEncode on every byte sequence, and
every string missing the literal z prefix is a hard decode error. -/
theorem c7_multibase_roundtrip_and_prefix_error :
    (∀ data : List Nat, (∀ b ∈ data, b < 256) →
      multibaseDecode (multibaseEncode data) = .ok data) ∧
    (∀ s : List Char, s.head? ≠ some 'z' →
      multibaseDecode s = .error "Invalid multibase encoding. Expected prefix 'z'.") := by
  constructor
  · intro data hdata
    simpa [multibaseEncode, multibaseDecode] using base58_roundtrip data hdata
  · intro s hs
    match s with
    | [] => rfl
    | c :: rest =>
      have hc : c ≠ 'z' := by
        intro h
        exact hs (by simp [h])
      simp [multibaseDecode, hc]

/-- Witness for C7 at a concrete byte sequence (with leading zeros and a
byte above 57) and a concrete prefix-free string. -/
theorem c7_witness :
    multibaseDecode (multibaseEncode [0, 0, 255, 1, 58]) = .ok [0, 0, 255, 1, 58] ∧
    multibaseDecode ['a', 'b'] = .error "Invalid multibase encoding. Expected prefix 'z'." := by
  exact ⟨c7_multibase_roundtrip_and_prefix_error.1 [0, 0, 255, 1, 58] (by decide),
    c7_multibase_roundtrip_and_prefix_error.2 ['a', 'b'] (by decide)⟩

/-! ## Multicodec utilities (src/utils/crypto-utils.ts) -/

/-- Codec names of the MULTICODECS table (the CodecName string union). -/
inductive CodecName where
  | secp256k1Priv
  | secp256k1Pub
  | ed25519Priv
  | ed25519Pub
deriving DecidableEq

/-- The MULTICODECS prefix table. -/
def MULTICODECS : CodecName → List Nat
  | .secp256k1Priv => [129, 38]
  | .secp256k1Pub => [231, 1]
  | .ed25519Priv => [128, 38]
  | .ed25519Pub => [237, 1]

/-- addMulticodecPrefix: prepend the stored codec bytes.  The source throws
for an unknown table key; the closed CodecName type makes the lookup total. -/
def addMulticodecPrefix (multicodec : CodecName) (data : List Nat) : List Nat :=
  MULTICODECS multicodec ++ data

/-- removeMulticodecPrefix: the source compares
data.slice(0, prefixLength).every((byte, index) => byte === prefix[index])
and strips that many bytes on success. -/
def removeMulticodecPrefix (multicodec : CodecName) (data : List Nat) :
    Except String (List Nat) :=
  if ((data.take (MULTICODECS multicodec).length).zip (MULTICODECS multicodec)).all
      (fun p => p.1 == p.2) then
    .ok (data.drop (MULTICODECS multicodec).length)
  else .error "Invalid multicodec prefix"

/-- detectKeyTypeFromPublicKeyBytes: length/leading-byte dispatch. -/
def detectKeyTypeFromPublicKeyBytes (publicKeyBytes : List Nat) : Except String String :=
  if publicKeyBytes.length = 32 then .ok "Ed25519"
  else if publicKeyBytes.length = 33 ∧ (publicKeyBytes.headD 0 = 2 ∨ publicKeyBytes.headD 0 = 3)
    then .ok "Secp256k1"
  else if publicKeyBytes.length = 65 ∧ publicKeyBytes.headD 0 = 4 then .ok "Secp256k1"
  else .error ("Unable to detect curve from public key. Unsupported key length or format: " ++
    toString publicKeyBytes.length)

theorem zip_all_eq_iff_take :
    ∀ (xs ys : List Nat), ((xs.zip ys).all fun p => p.1 == p.2) = true ↔
      xs.take ys.length = ys.take xs.length := by
  intro xs
  induction xs with
  | nil => intro ys; simp
  | cons x xs ih =>
    intro ys
    cases ys with
    | nil => simp
    | cons y ys =>
      simp only [List.zip_cons_cons, List.all_cons, Bool.and_eq_true, beq_iff_eq,
        List.length_cons, List.take_succ_cons, List.cons.injEq]
      rw [ih ys]

/-- C9 counterexample: an input shorter than the stored secp256k1-pub
prefix (so the prefix cannot be present) is accepted and yields the empty
remainder instead of a codec-mismatch error. -/
theorem c9_counterexample_short_input_accepted :
    removeMulticodecPrefix .secp256k1Pub [231] = .ok [] ∧
    [231].length < (MULTICODECS .secp256k1Pub).length := by
  constructor
  · rfl
  · decide

/-- C9 (amended): a byte mismatch inside the compared range is a
codec-mismatch error and the prefix is stripped when fully present; but an
input shorter than the stored prefix is accepted (with empty remainder)
exactly when it is a truncation of the prefix. -/
theorem c9_remove_multicodec_prefix_spec :
    ∀ (c : CodecName) (data : List Nat),
      ((MULTICODECS c).length ≤ data.length →
        (¬ (MULTICODECS c).IsPrefix data →
          removeMulticodecPrefix c data = .error "Invalid multicodec prefix") ∧
        ((MULTICODECS c).IsPrefix data →
          removeMulticodecPrefix c data = .ok (data.drop (MULTICODECS c).length))) ∧
      (data.length < (MULTICODECS c).length →
        (¬ data.IsPrefix (MULTICODECS c) →
          removeMulticodecPrefix c data = .error "Invalid multicodec prefix") ∧
        (data.IsPrefix (MULTICODECS c) →
          removeMulticodecPrefix c data = .ok [])) := by
  intro c data
  constructor
  · intro hlen
    have hcond : (((data.take (MULTICODECS c).length).zip (MULTICODECS c)).all
        (fun p => p.1 == p.2)) = true ↔ (MULTICODECS c).IsPrefix data := by
      rw [zip_all_eq_iff_take]
      have h1 : (data.take (MULTICODECS c).length).length = (MULTICODECS c).length := by
        rw [List.length_take]
        omega
      rw [h1, List.take_take, Nat.min_self, List.take_length]
      rw [List.prefix_iff_eq_take]
      constructor
      · intro h; exact h.symm
      · intro h; exact h.symm
    constructor
    · intro hnp
      unfold removeMulticodecPrefix
      rw [if_neg]
      intro hcontra
      exact hnp (hcond.mp hcontra)
    · intro hp
      unfold removeMulticodecPrefix
      rw [if_pos (hcond.mpr hp)]
  · intro hlen
    have htk : data.take (MULTICODECS c).length = data :=
      List.take_of_length_le (by omega)
    have hcond : (((data.take (MULTICODECS c).length).zip (MULTICODECS c)).all
        (fun p => p.1 == p.2)) = true ↔ data.IsPrefix (MULTICODECS c) := by
      rw [zip_all_eq_iff_take, htk]
      have h2 : data.take (MULTICODECS c).length = data := htk
      rw [h2, List.prefix_iff_eq_take]
    have hdrop : data.drop (MULTICODECS c).length = [] :=
      List.drop_eq_nil_of_le (by omega)
    constructor
    · intro hnp
      unfold removeMulticodecPrefix
      rw [if_neg]
      intro hcontra
      exact hnp (hcond.mp hcontra)
    · intro hp
      unfold removeMulticodecPrefix
      rw [if_pos (hcond.mpr hp), hdrop]

/-- Witness for the amended C9: a mismatching long input errors, a
matching long input strips, a non-truncation short input errors. -/
theorem c9_witness :
    removeMulticodecPrefix .ed25519Pub [1, 2, 3] = .error "Invalid multicodec prefix" ∧
    removeMulticodecPrefix .ed25519Pub [237, 1, 5] = .ok [5] ∧
    removeMulticodecPrefix .ed25519Pub [9] = .error "Invalid multicodec prefix" := by
  refine ⟨?_, ?_, ?_⟩
  · exact ((c9_remove_multicodec_prefix_spec .ed25519Pub [1, 2, 3]).1 (by decide)).1 (by decide)
  · exact ((c9_remove_multicodec_prefix_spec .ed25519Pub [237, 1, 5]).1 (by decide)).2 (by decide)
  · exact ((c9_remove_multicodec_prefix_spec .ed25519Pub [9]).2 (by decide)).1 (by decide)

/-- C6: key-type detection returns Ed25519 exactly for 32-byte inputs,
Secp256k1 exactly for 33-byte inputs with leading byte 2 or 3 and for
65-byte inputs with leading byte 4, and errors on every other shape. -/
theorem c6_detect_key_type_spec :
    ∀ bs : List Nat,
      (detectKeyTypeFromPublicKeyBytes bs = .ok "Ed25519" ↔ bs.length = 32) ∧
      (detectKeyTypeFromPublicKeyBytes bs = .ok "Secp256k1" ↔
        ((bs.length = 33 ∧ (bs.headD 0 = 2 ∨ bs.headD 0 = 3)) ∨
          (bs.length = 65 ∧ bs.headD 0 = 4))) ∧
      ((bs.length ≠ 32 ∧ ¬(bs.length = 33 ∧ (bs.headD 0 = 2 ∨ bs.headD 0 = 3)) ∧
          ¬(bs.length = 65 ∧ bs.headD 0 = 4)) →
        detectKeyTypeFromPublicKeyBytes bs =
          .error ("Unable to detect curve from public key. Unsupported key length or format: " ++
            toString bs.length)) := by
  intro bs
  unfold detectKeyTypeFromPublicKeyBytes
  split_ifs with h1 h2 h3
  · refine ⟨by simp [h1], ?_, ?_⟩
    · simp only [Except.ok.injEq]
      constructor
      · intro h; exact absurd h (by decide)
      · intro h; omega
    · intro h; exact absurd h1 h.1
  · refine ⟨?_, ⟨fun _ => Or.inl h2, fun _ => rfl⟩, ?_⟩
    · simp only [Except.ok.injEq]
      constructor
      · intro h; exact absurd h (by decide)
      · intro h; omega
    · intro h; exact absurd h2 h.2.1
  · refine ⟨?_, ⟨fun _ => Or.inr h3, fun _ => rfl⟩, ?_⟩
    · simp only [Except.ok.injEq]
      constructor
      · intro h; exact absurd h (by decide)
      · intro h; omega
    · intro h; exact absurd h3 h.2.2
  · refine ⟨?_, ?_, ?_⟩
    · constructor
      · intro h; exact absurd h (by simp)
      · intro h; exact absurd h h1
    · constructor
      · intro h; exact absurd h (by simp)
      · intro h
        rcases h with h | h
        · exact absurd h h2
        · exact absurd h h3
    · intro _; rfl

/-- Witness for C6: a 31-byte key is rejected with the unsupported-length
error, a 32-byte key is Ed25519, a compressed 33-byte key is Secp256k1. -/
theorem c6_witness :
    detectKeyTypeFromPublicKeyBytes (List.replicate 31 1) =
      .error ("Unable to detect curve from public key. Unsupported key length or format: " ++
        toString (List.replicate 31 (1 : Nat)).length) ∧
    detectKeyTypeFromPublicKeyBytes (List.replicate 32 1) = .ok "Ed25519" ∧
    detectKeyTypeFromPublicKeyBytes (2 :: List.replicate 32 1) = .ok "Secp256k1" := by
  refine ⟨?_, ?_, ?_⟩
  · exact (c6_detect_key_type_spec (List.replicate 31 1)).2.2 (by decide)
  · exact (c6_detect_key_type_spec (List.replicate 32 1)).1.mpr (by decide)
  · exact (c6_detect_key_type_spec (2 :: List.replicate 32 1)).2.1.mpr (by decide)

/-! ## Public keys and key-format utilities (src/utils/crypto-utils.ts)

The @hashgraph/sdk PublicKey object is an external collaborator; it is
modelled as raw bytes plus the curve the SDK constructor checked. -/

/-- Key type constants.  Modelled from the spec: hcs-did-key-type.ts is
not under src/, the spec fixes the three format names. -/
def ED25519_KEY_TYPE : String := "Ed25519VerificationKey2020"

def ECDSA_SECP256K1_KEY_TYPE : String := "EcdsaSecp256k1VerificationKey2020"

def JSON_WEB_KEY_TYPE : String := "JsonWebKey2020"

inductive KeyKind where
  | ed25519
  | ecdsa
deriving DecidableEq

/-- Model of the external @hashgraph/sdk PublicKey. -/
structure PublicKey where
  kind : KeyKind
  bytes : List Nat
deriving DecidableEq

def PublicKey.toBytesRaw (pk : PublicKey) : List Nat := pk.bytes

/-- Models the external SDK constructor: accepts 32 raw Ed25519 bytes. -/
def PublicKey.fromBytesED25519 (bs : List Nat) : Except String PublicKey :=
  if bs.length = 32 then .ok ⟨.ed25519, bs⟩
  else .error "invalid Ed25519 public key length"

/-- Models the external SDK constructor: accepts compressed or
uncompressed ECDSA key bytes. -/
def PublicKey.fromBytesECDSA (bs : List Nat) : Except String PublicKey :=
  if bs.length = 33 ∨ bs.length = 65 then .ok ⟨.ecdsa, bs⟩
  else .error "invalid ECDSA public key length"

/-- detectKeyTypeFromPublicKey: byte-level detection on toBytesRaw. -/
def detectKeyTypeFromPublicKey (publicKey : PublicKey) : Except String String :=
  detectKeyTypeFromPublicKeyBytes publicKey.toBytesRaw

/-- getCompressedPublicKey: x coordinate with a parity byte from the last
byte of y (the source returns hex, converted back to bytes at the caller). -/
def getCompressedPublicKey (uncompressedKey : List Nat) : List Nat :=
  let x := (uncompressedKey.drop 1).take 32
  let y := uncompressedKey.drop 33
  (if y.getLastD 0 % 2 = 0 then 2 else 3) :: x

/-- compressSecp256k1PublicKey: demands the 65-byte uncompressed form. -/
def compressSecp256k1PublicKey (uncompressedKey : List Nat) : Except String (List Nat) :=
  if uncompressedKey.length ≠ 65 ∨ uncompressedKey.headD 0 ≠ 4 then
    .error "Invalid uncompressed Secp256k1 public key"
  else
    let x := (uncompressedKey.drop 1).take 32
    let y := uncompressedKey.drop 33
    .ok ((if y.getLastD 0 % 2 = 0 then 2 else 3) :: x)

/-- getPublicKeyBase58ForEd25519: multicodec prefix then base58btc. -/
def getPublicKeyBase58ForEd25519 (publicKey : List Nat) : Except String (List Char) :=
  if publicKey.length ≠ 32 then
    .error "Invalid Ed25519 public key length. Expected 32 bytes."
  else
    .ok (multibaseEncode (addMulticodecPrefix .ed25519Pub publicKey))

/-- getPublicKeyBase58ForSecp256k1: compresses an uncompressed key, keeps
a compressed key, rejects anything else; always stores compressed bytes. -/
def getPublicKeyBase58ForSecp256k1 (publicKey : List Nat) : Except String (List Char) :=
  if publicKey.headD 0 = 4 then
    .ok (multibaseEncode (addMulticodecPrefix .secp256k1Pub (getCompressedPublicKey publicKey)))
  else if publicKey.headD 0 = 2 ∨ publicKey.headD 0 = 3 then
    .ok (multibaseEncode (addMulticodecPrefix .secp256k1Pub publicKey))
  else
    .error "Invalid Secp256k1 public key. Must be compressed or uncompressed."

/-- getPublicKeyMultibaseString: dispatch on the format constant passed by
the event classes. -/
def getPublicKeyMultibaseString (keyType : String) (publicKeyBytes : List Nat) :
    Except String (List Char) :=
  if keyType = ECDSA_SECP256K1_KEY_TYPE then getPublicKeyBase58ForSecp256k1 publicKeyBytes
  else if keyType = ED25519_KEY_TYPE then getPublicKeyBase58ForEd25519 publicKeyBytes
  else .error "Unsupported key type for Base58 encoding"

/-! ### JWK conversion (getPublicKeyFromJWK / createJWK)

base64url transport is the external atob/btoa capability; the veramo
createJWK helper is an external capability too.  Both are modelled at the
byte level; elliptic point decompression is real curve arithmetic outside
the model, so compressed Secp256k1 input to the JWK builder is modelled as
an error.  No claim exercises these paths; they are embedded so that
parsePublicKey and the event serializers keep the structure of the source. -/

def b64uChar (v : Nat) : Char :=
  if v < 26 then Char.ofNat (65 + v)
  else if v < 52 then Char.ofNat (97 + (v - 26))
  else if v < 62 then Char.ofNat (48 + (v - 52))
  else if v = 62 then '-'
  else '_'

def b64uValue (c : Char) : Option Nat :=
  if 'A' ≤ c ∧ c ≤ 'Z' then some (c.toNat - 65)
  else if 'a' ≤ c ∧ c ≤ 'z' then some (c.toNat - 97 + 26)
  else if '0' ≤ c ∧ c ≤ '9' then some (c.toNat - 48 + 52)
  else if c = '+' ∨ c = '-' then some 62
  else if c = '/' ∨ c = '_' then some 63
  else none

def bytesToBase64url : List Nat → List Char
  | b1 :: b2 :: b3 :: rest =>
    b64uChar (b1 / 4) :: b64uChar (b1 % 4 * 16 + b2 / 16) ::
      b64uChar (b2 % 16 * 4 + b3 / 64) :: b64uChar (b3 % 64) :: bytesToBase64url rest
  | [b1, b2] => [b64uChar (b1 / 4), b64uChar (b1 % 4 * 16 + b2 / 16), b64uChar (b2 % 16 * 4)]
  | [b1] => [b64uChar (b1 / 4), b64uChar (b1 % 4 * 16)]
  | [] => []

def base64urlAssemble : List Nat → List Nat
  | v1 :: v2 :: v3 :: v4 :: rest =>
    (v1 * 4 + v2 / 16) :: (v2 % 16 * 16 + v3 / 4) :: (v3 % 4 * 64 + v4) ::
      base64urlAssemble rest
  | [v1, v2, v3] => [v1 * 4 + v2 / 16, v2 % 16 * 16 + v3 / 4]
  | [v1, v2] => [v1 * 4 + v2 / 16]
  | _ => []

/-- base64urlToBytes: models the atob-based helper of crypto-utils.ts. -/
def base64urlToBytes (s : List Char) : Except String (List Nat) :=
  match s.mapM b64uValue with
  | some vals => .ok (base64urlAssemble vals)
  | none => .error "invalid base64url character"

/-- String field of a JWK object, `none` when absent or not a string. -/
def jwkStrField (jwk : Json) (k : String) : Option String :=
  match jsField jwk k with
  | some (.str s) => some s
  | _ => none

/-- getPublicKeyFromJWK: crv dispatch from the source; the isJWK check of
the external veramo capability is modelled as requiring an object. -/
def getPublicKeyFromJWK (jwk : Json) : Except String (List Nat) :=
  match jwk with
  | .obj _ =>
    match jwkStrField jwk "crv" with
    | some "secp256k1" =>
      if jwkStrField jwk "kty" = some "EC" ∧ (jwkStrField jwk "x").isSome ∧
          (jwkStrField jwk "y").isSome then do
        let x ← base64urlToBytes ((jwkStrField jwk "x").getD "").toList
        let y ← base64urlToBytes ((jwkStrField jwk "y").getD "").toList
        Except.ok (4 :: (x ++ y))
      else Except.error "Invalid secp256k1 JWK"
    | some "P-256" =>
      if jwkStrField jwk "kty" = some "EC" ∧ (jwkStrField jwk "x").isSome ∧
          (jwkStrField jwk "y").isSome then do
        let x ← base64urlToBytes ((jwkStrField jwk "x").getD "").toList
        let y ← base64urlToBytes ((jwkStrField jwk "y").getD "").toList
        Except.ok (4 :: (x ++ y))
      else Except.error "Invalid P-256 JWK"
    | some "Ed25519" =>
      if jwkStrField jwk "kty" = some "OKP" ∧ (jwkStrField jwk "x").isSome then
        base64urlToBytes ((jwkStrField jwk "x").getD "").toList
      else Except.error "Invalid Ed25519/X25519 JWK"
    | some "X25519" =>
      if jwkStrField jwk "kty" = some "OKP" ∧ (jwkStrField jwk "x").isSome then
        base64urlToBytes ((jwkStrField jwk "x").getD "").toList
      else Except.error "Invalid Ed25519/X25519 JWK"
    | _ => Except.error "Unsupported curve"
  | _ => .error "Invalid JWK"

/-- createJWK: models the external veramo capability (compressed
Secp256k1 input would need point decompression, modelled as an error). -/
def createJWK (keyType : String) (bytes : List Nat) : Except String Json :=
  if keyType = "Ed25519" then
    .ok (.obj [("kty", .str "OKP"), ("crv", .str "Ed25519"),
      ("x", .str (String.mk (bytesToBase64url bytes)))])
  else if keyType = "Secp256k1" then
    if bytes.length = 65 ∧ bytes.headD 0 = 4 then
      .ok (.obj [("kty", .str "EC"), ("crv", .str "secp256k1"),
        ("x", .str (String.mk (bytesToBase64url ((bytes.drop 1).take 32)))),
        ("y", .str (String.mk (bytesToBase64url (bytes.drop 33))))])
    else .error "createJWK model: point decompression is outside the model"
  else .error "Unsupported key type for JWK"

/-! ### parsePublicKey (crypto-utils.ts, lines 213-250) -/

/-- String-literal strict equality against a JS value. -/
def Json.eqStr : Json → String → Bool
  | .str t, s => t == s
  | _, _ => false

/-- The `tree?.type || Ed25519VerificationKey2020` default. -/
def parsePublicKeyFormat (tree : Json) : Json :=
  match jsField tree "type" with
  | some t => if t.truthy then t else .str ED25519_KEY_TYPE
  | none => .str ED25519_KEY_TYPE

/-- Shared tail of parsePublicKey: detect the curve and build the SDK key;
the Secp256k1 arm unconditionally calls compressSecp256k1PublicKey. -/
def parsePublicKeyBuild (publicKeyBytes : List Nat) : Except String PublicKey := do
  let keyType ← detectKeyTypeFromPublicKeyBytes publicKeyBytes
  if keyType = "Secp256k1" then do
    let compressedKey ← compressSecp256k1PublicKey publicKeyBytes
    PublicKey.fromBytesECDSA compressedKey
  else if keyType = "Ed25519" then
    PublicKey.fromBytesED25519 publicKeyBytes
  else
    Except.error "undefined public key"

/-- parsePublicKey: multibase branch, JWK branch, or a missing-key error;
returns the key together with the format value read from the tree. -/
def parsePublicKey (tree : Json) : Except String (PublicKey × Json) :=
  let publicKeyFormat := parsePublicKeyFormat tree
  if truthyOpt (jsField tree "publicKeyMultibase") then do
    let s ← match jsField tree "publicKeyMultibase" with
      | some (.str s) => Except.ok s
      | _ => Except.error "multibase decode expects a string"
    let decodedBytes ← multibaseDecode s.toList
    let publicKeyBytes ←
      if publicKeyFormat.eqStr ECDSA_SECP256K1_KEY_TYPE then
        removeMulticodecPrefix .secp256k1Pub decodedBytes
      else if publicKeyFormat.eqStr ED25519_KEY_TYPE then
        removeMulticodecPrefix .ed25519Pub decodedBytes
      else Except.error "Unsupported key type in JSON tree"
    let publicKey ← parsePublicKeyBuild publicKeyBytes
    Except.ok (publicKey, publicKeyFormat)
  else if truthyOpt (jsField tree "publicKeyJwk") then do
    let publicKeyBytes ← match getPublicKeyFromJWK ((jsField tree "publicKeyJwk").getD .null) with
      | .ok bs => Except.ok bs
      | .error e => Except.error ("Failed to reconstruct public key from JWK: " ++ e)
    let publicKey ← parsePublicKeyBuild publicKeyBytes
    Except.ok (publicKey, publicKeyFormat)
  else .error "Missing publicKeyMultibase or publicKeyJwk in the JSON tree"

/-! ## Event classes (src/identity/hcs/did/event/...)

The HcsDidEvent base class is not under src/; its event-id validators are
modelled from the spec: an event id is a DID string, a hash sign, and a
fixed suffix (key-<integer> for key-bearing events, did-root-key for the
owner, service-<integer> for services).  Only the suffix grammar and the
nonemptiness of the DID part are modelled. -/

/-- Modelled from the spec: HcsDidEvent.isKeyEventIdValid, id format
did#key-<integer>. -/
def isKeyEventIdValid (eventId : String) : Bool :=
  match jsSplit '#' eventId.toList with
  | [idPart, suffix] =>
    !idPart.isEmpty &&
      (match suffix with
       | 'k' :: 'e' :: 'y' :: '-' :: ds => !ds.isEmpty && ds.all Char.isDigit
       | _ => false)
  | _ => false

/-- Modelled from the spec: HcsDidEvent.isOwnerEventIdValid, id format
did#did-root-key. -/
def isOwnerEventIdValid (eventId : String) : Bool :=
  match jsSplit '#' eventId.toList with
  | [idPart, suffix] => !idPart.isEmpty && suffix == "did-root-key".toList
  | _ => false

/-- Modelled from the spec: service event ids use did#service-<integer>. -/
def isServiceEventIdValid (eventId : String) : Bool :=
  match jsSplit '#' eventId.toList with
  | [idPart, suffix] =>
    !idPart.isEmpty &&
      (match suffix with
       | 's' :: 'e' :: 'r' :: 'v' :: 'i' :: 'c' :: 'e' :: '-' :: ds =>
         !ds.isEmpty && ds.all Char.isDigit
       | _ => false)
  | _ => false

/-- String payload of a truthy JS value, as the event constructors use it
(`fields are stored at string type; a non-string truthy field would make
the id validator throw in JS, modelled as the TypeError branch`). -/
def jsStringArg (v : Option Json) : Except String String :=
  match v with
  | some (.str s) => .ok s
  | _ => .error "TypeError: field is not a string"

/-- HcsDidCreateVerificationMethodEvent (also the field layout reused by
its Update subclass). -/
structure HcsDidCreateVerificationMethodEvent where
  id : String
  type : String
  publicKeyFormat : String
  controller : String
  publicKey : PublicKey
deriving DecidableEq

/-- Format validation and defaulting shared by the key-bearing event
constructors: the format argument must be one of the three constants when
truthy, and defaults by detected curve otherwise. -/
def resolvePublicKeyFormat (publicKeyFormatJ : Json) (keyType : String) :
    Except String String :=
  if publicKeyFormatJ.truthy ∧
      ¬(publicKeyFormatJ.eqStr ED25519_KEY_TYPE ∨
        publicKeyFormatJ.eqStr ECDSA_SECP256K1_KEY_TYPE ∨
        publicKeyFormatJ.eqStr JSON_WEB_KEY_TYPE) then
    .error "Unsupported public key format"
  else if publicKeyFormatJ.truthy then
    .ok (match publicKeyFormatJ with | .str s => s | _ => "")
  else
    .ok (if keyType = "Ed25519" then ED25519_KEY_TYPE else ECDSA_SECP256K1_KEY_TYPE)

/-- Constructor of HcsDidCreateVerificationMethodEvent. -/
def mkCreateVerificationMethodEvent (idJ controllerJ : Option Json) (publicKey : PublicKey)
    (publicKeyFormatJ : Json) : Except String HcsDidCreateVerificationMethodEvent := do
  if !(truthyOpt idJ) || !(truthyOpt controllerJ) then
    throw "Validation failed. Verification Method args are missing"
  let id ← jsStringArg idJ
  if !(isKeyEventIdValid id) then
    throw "Event ID is invalid. Expected format: \x7bdid\x7d#key-\x7binteger\x7d"
  let controller ← jsStringArg controllerJ
  let type ← detectKeyTypeFromPublicKey publicKey
  let publicKeyFormat ← resolvePublicKeyFormat publicKeyFormatJ type
  return ⟨id, type, publicKeyFormat, controller, publicKey⟩

def HcsDidCreateVerificationMethodEvent.getVerificationMethodDef
    (e : HcsDidCreateVerificationMethodEvent) : Except String Json := do
  if e.publicKeyFormat = JSON_WEB_KEY_TYPE then do
    let jwk ← createJWK e.type e.publicKey.toBytesRaw
    return .obj [("id", .str e.id), ("type", .str e.publicKeyFormat),
      ("controller", .str e.controller), ("publicKeyJwk", jwk)]
  else do
    let mb ← getPublicKeyMultibaseString e.publicKeyFormat e.publicKey.toBytesRaw
    return .obj [("id", .str e.id), ("type", .str e.publicKeyFormat),
      ("controller", .str e.controller), ("publicKeyMultibase", .str (String.mk mb))]

/-- toJsonTree wraps the definition under the VerificationMethod target. -/
def HcsDidCreateVerificationMethodEvent.toJsonTree
    (e : HcsDidCreateVerificationMethodEvent) : Except String Json := do
  let d ← e.getVerificationMethodDef
  return .obj [("VerificationMethod", d)]

/-- fromJsonTree: parsePublicKey, then the constructor. -/
def HcsDidCreateVerificationMethodEvent.fromJsonTree (tree : Json) :
    Except String HcsDidCreateVerificationMethodEvent := do
  let pk ← parsePublicKey tree
  mkCreateVerificationMethodEvent (jsField tree "id") (jsField tree "controller") pk.1 pk.2

/-- HcsDidCreateVerificationRelationshipEvent (and its Update subclass). -/
structure HcsDidCreateVerificationRelationshipEvent where
  id : String
  type : String
  publicKeyFormat : String
  relationshipType : String
  controller : String
  publicKey : PublicKey
deriving DecidableEq

def mkCreateVerificationRelationshipEvent (idJ relationshipTypeJ controllerJ : Option Json)
    (publicKey : PublicKey) (publicKeyFormatJ : Json) :
    Except String HcsDidCreateVerificationRelationshipEvent := do
  if !(truthyOpt idJ) || !(truthyOpt relationshipTypeJ) || !(truthyOpt controllerJ) then
    throw "Validation failed. Verification Relationship args are missing"
  let id ← jsStringArg idJ
  if !(isKeyEventIdValid id) then
    throw "Event ID is invalid. Expected format: \x7bdid\x7d#key-\x7binteger\x7d"
  let relationshipType ← jsStringArg relationshipTypeJ
  let controller ← jsStringArg controllerJ
  let type ← detectKeyTypeFromPublicKey publicKey
  let publicKeyFormat ← resolvePublicKeyFormat publicKeyFormatJ type
  return ⟨id, type, publicKeyFormat, relationshipType, controller, publicKey⟩

def HcsDidCreateVerificationRelationshipEvent.getVerificationRelationshipDef
    (e : HcsDidCreateVerificationRelationshipEvent) : Except String Json := do
  if e.publicKeyFormat = JSON_WEB_KEY_TYPE then do
    let jwk ← createJWK e.type e.publicKey.toBytesRaw
    return .obj [("id", .str e.id), ("type", .str e.publicKeyFormat),
      ("controller", .str e.controller), ("publicKeyJwk", jwk),
      ("relationshipType", .str e.relationshipType)]
  else do
    let mb ← getPublicKeyMultibaseString e.publicKeyFormat e.publicKey.toBytesRaw
    return .obj [("id", .str e.id), ("type", .str e.publicKeyFormat),
      ("controller", .str e.controller), ("publicKeyMultibase", .str (String.mk mb)),
      ("relationshipType", .str e.relationshipType)]

def HcsDidCreateVerificationRelationshipEvent.toJsonTree
    (e : HcsDidCreateVerificationRelationshipEvent) : Except String Json := do
  let d ← e.getVerificationRelationshipDef
  return .obj [("VerificationRelationship", d)]

def HcsDidCreateVerificationRelationshipEvent.fromJsonTree (tree : Json) :
    Except String HcsDidCreateVerificationRelationshipEvent := do
  let pk ← parsePublicKey tree
  mkCreateVerificationRelationshipEvent (jsField tree "id") (jsField tree "relationshipType")
    (jsField tree "controller") pk.1 pk.2

/-- HcsDidCreateDidOwnerEvent (and its Update subclass). -/
structure HcsDidCreateDidOwnerEvent where
  id : String
  type : String
  publicKeyFormat : String
  controller : String
  publicKey : PublicKey
deriving DecidableEq

def mkCreateDidOwnerEvent (idJ controllerJ : Option Json) (publicKey : PublicKey)
    (publicKeyFormatJ : Json) : Except String HcsDidCreateDidOwnerEvent := do
  if !(truthyOpt idJ) || !(truthyOpt controllerJ) then
    throw "Validation failed. DID Owner args are missing"
  let id ← jsStringArg idJ
  if !(isOwnerEventIdValid id) then
    throw "Event ID is invalid. Expected format: \x7bdid\x7d#did-root-key"
  let controller ← jsStringArg controllerJ
  let type ← detectKeyTypeFromPublicKey publicKey
  let publicKeyFormat ← resolvePublicKeyFormat publicKeyFormatJ type
  return ⟨id, type, publicKeyFormat, controller, publicKey⟩

def HcsDidCreateDidOwnerEvent.fromJsonTree (tree : Json) :
    Except String HcsDidCreateDidOwnerEvent := do
  let pk ← parsePublicKey tree
  mkCreateDidOwnerEvent (jsField tree "id") (jsField tree "controller") pk.1 pk.2

/-- Service event fields.  Modelled from the spec: the service event
classes are not under src/; they carry id, type and serviceEndpoint and
validate fail-fast at construction. -/
structure HcsDidServiceFields where
  id : String
  type : String
  serviceEndpoint : String
deriving DecidableEq

/-- Modelled from the spec: service create/update constructor. -/
def mkServiceEvent (idJ typeJ serviceEndpointJ : Option Json) :
    Except String HcsDidServiceFields := do
  if !(truthyOpt idJ) || !(truthyOpt typeJ) || !(truthyOpt serviceEndpointJ) then
    throw "Validation failed. Services args are missing"
  let id ← jsStringArg idJ
  if !(isServiceEventIdValid id) then
    throw "Event ID is invalid. Expected format: \x7bdid\x7d#service-\x7binteger\x7d"
  let type ← jsStringArg typeJ
  let serviceEndpoint ← jsStringArg serviceEndpointJ
  return ⟨id, type, serviceEndpoint⟩

def serviceEventFromJsonTree (tree : Json) : Except String HcsDidServiceFields :=
  mkServiceEvent (jsField tree "id") (jsField tree "type") (jsField tree "serviceEndpoint")

/-- Modelled from the spec: revoke constructors carry only the id. -/
def mkRevokeIdEvent (idJ : Option Json) (validId : String → Bool) (label : String) :
    Except String String := do
  if !(truthyOpt idJ) then
    throw ("Validation failed. " ++ label ++ " args are missing")
  let id ← jsStringArg idJ
  if !(validId id) then
    throw "Event ID is invalid."
  return id

/-- Modelled from the spec: HcsDidCreateDidDocumentEvent fields. -/
def didDocumentFromJsonTree (tree : Json) : Except String (String × String) := do
  if !(truthyOpt (jsField tree "id")) || !(truthyOpt (jsField tree "cid")) then
    throw "Validation failed. DID Document args are missing"
  let id ← jsStringArg (jsField tree "id")
  let cid ← jsStringArg (jsField tree "cid")
  return (id, cid)

/-- Tagged union of the decoded event variants handled by the dispatcher
(the HcsDidEvent class hierarchy). -/
inductive HcsDidEventSum where
  | empty
  | deleteEvent
  | createDidOwner (e : HcsDidCreateDidOwnerEvent)
  | updateDidOwner (e : HcsDidCreateDidOwnerEvent)
  | createDidDocument (id cid : String)
  | createService (e : HcsDidServiceFields)
  | updateService (e : HcsDidServiceFields)
  | revokeService (id : String)
  | createVerificationMethod (e : HcsDidCreateVerificationMethodEvent)
  | updateVerificationMethod (e : HcsDidCreateVerificationMethodEvent)
  | revokeVerificationMethod (id : String)
  | createVerificationRelationship (e : HcsDidCreateVerificationRelationshipEvent)
  | updateVerificationRelationship (e : HcsDidCreateVerificationRelationshipEvent)
  | revokeVerificationRelationship (id : String) (relationshipType : String)
deriving DecidableEq

/-- HcsDidDeleteEvent.fromJsonTree: the constructor takes no arguments and
cannot throw. -/
def deleteEventFromJsonTree (_tree : Json) : Except String HcsDidEventSum :=
  .ok .deleteEvent

/-- Modelled from the spec: revoke verification relationship carries the
relationship type next to the id. -/
def revokeVerificationRelationshipFromJsonTree (tree : Json) :
    Except String HcsDidEventSum := do
  let id ← mkRevokeIdEvent (jsField tree "id") isKeyEventIdValid "Verification Relationship"
  let relationshipType ← jsStringArg (jsField tree "relationshipType")
  return .revokeVerificationRelationship id relationshipType

/-! ## Event dispatcher (HcsDidEventParser, src/unnamed/part_005) -/

/-- The DidMethodOperation enum. -/
inductive DidMethodOperation where
  | CREATE_DID_DOCUMENT
  | CREATE
  | UPDATE
  | REVOKE
  | DELETE
deriving DecidableEq

/-- OPERATION_MAP from the source. -/
def OPERATION_MAP : DidMethodOperation → String
  | .CREATE_DID_DOCUMENT => "create-did-document"
  | .CREATE => "create"
  | .UPDATE => "update"
  | .REVOKE => "revoke"
  | .DELETE => "delete"

/-- EVENT_NAME_TO_CLASS: ordered (targetName, fromJsonTree) rows per
operation kind; `none` models an absent table entry, whose Object.keys
call throws in the source. -/
def EVENT_NAME_TO_CLASS (opName : String) :
    Option (List (String × (Json → Except String HcsDidEventSum))) :=
  if opName = "create" then some [
    ("DIDOwner", fun t => (HcsDidCreateDidOwnerEvent.fromJsonTree t).map .createDidOwner),
    ("DIDDocument", fun t => (didDocumentFromJsonTree t).map (fun p => .createDidDocument p.1 p.2)),
    ("Service", fun t => (serviceEventFromJsonTree t).map .createService),
    ("VerificationMethod", fun t =>
      (HcsDidCreateVerificationMethodEvent.fromJsonTree t).map .createVerificationMethod),
    ("VerificationRelationship", fun t =>
      (HcsDidCreateVerificationRelationshipEvent.fromJsonTree t).map .createVerificationRelationship)]
  else if opName = "update" then some [
    ("DIDOwner", fun t => (HcsDidCreateDidOwnerEvent.fromJsonTree t).map .updateDidOwner),
    ("Service", fun t => (serviceEventFromJsonTree t).map .updateService),
    ("VerificationMethod", fun t =>
      (HcsDidCreateVerificationMethodEvent.fromJsonTree t).map .updateVerificationMethod),
    ("VerificationRelationship", fun t =>
      (HcsDidCreateVerificationRelationshipEvent.fromJsonTree t).map .updateVerificationRelationship)]
  else if opName = "revoke" then some [
    ("Service", fun t => (mkRevokeIdEvent (jsField t "id") isServiceEventIdValid "Service").map .revokeService),
    ("VerificationMethod", fun t =>
      (mkRevokeIdEvent (jsField t "id") isKeyEventIdValid "Verification Method").map .revokeVerificationMethod),
    ("VerificationRelationship", revokeVerificationRelationshipFromJsonTree)]
  else none

/-- The Object.keys(...).find(etn => !!tree[etn]) scan; property access on
a null tree throws, which propagates into the catch of the dispatcher. -/
def findTarget (entries : List (String × (Json → Except String HcsDidEventSum)))
    (tree : Json) : Except String (Option (String × (Json → Except String HcsDidEventSum))) :=
  match entries with
  | [] => .ok none
  | (etn, ctor) :: rest => do
    let v ← jsIndex tree etn
    if truthyOpt v then
      return some (etn, ctor)
    else
      findTarget rest tree

/-- Body of the try block shared by fromBase64 and fromJson: `none` as the
payload models a base64/JSON decode throw, a present tree is dispatched
through the table.  Any `.error` models an exception reaching the catch. -/
def dispatchTry (operation : DidMethodOperation) (payload : Option Json) :
    Except String HcsDidEventSum := do
  let tree ← match payload with
    | none => Except.error "decode failure"
    | some t => Except.ok t
  let entries ← match EVENT_NAME_TO_CLASS (OPERATION_MAP operation) with
    | none => Except.error "TypeError: Object.keys of undefined"
    | some es => Except.ok es
  match ← findTarget entries tree with
  | some (etn, ctor) => do
    let v ← jsIndex tree etn
    ctor (v.getD .null)
  | none => return .empty

/-- HcsDidEventParser.fromBase64: the DELETE arm runs outside the
try/catch; every other operation runs the dispatch body under a catch that
degrades any exception to the empty event.  The payload argument is the
outcome of the external base64+JSON decode (`none` for a throw). -/
def HcsDidEventParser.fromBase64 (operation : DidMethodOperation) (payload : Option Json) :
    Except String HcsDidEventSum :=
  if operation = .DELETE then
    deleteEventFromJsonTree .null
  else
    match dispatchTry operation payload with
    | .ok e => .ok e
    | .error _ => .ok .empty

/-- HcsDidEventParser.fromJson: same shape on an already-parsed tree. -/
def HcsDidEventParser.fromJson (operation : DidMethodOperation) (eventJson : Json) :
    Except String HcsDidEventSum :=
  if operation = .DELETE then
    deleteEventFromJsonTree .null
  else
    match dispatchTry operation (some eventJson) with
    | .ok e => .ok e
    | .error _ => .ok .empty

/-- C3: the event dispatcher never throws to its caller — both entry
points always return an event, and whenever the dispatch body raises any
decode or constructor exception the returned event is the inert empty
event. -/
theorem c3_parser_never_throws :
    ∀ (operation : DidMethodOperation) (payload : Option Json) (eventJson : Json),
      (∃ ev, HcsDidEventParser.fromBase64 operation payload = .ok ev ∧
        (∀ msg, operation ≠ .DELETE → dispatchTry operation payload = .error msg →
          ev = .empty)) ∧
      (∃ ev, HcsDidEventParser.fromJson operation eventJson = .ok ev ∧
        (∀ msg, operation ≠ .DELETE → dispatchTry operation (some eventJson) = .error msg →
          ev = .empty)) := by
  intro operation payload eventJson
  constructor
  · by_cases hdel : operation = .DELETE
    · refine ⟨.deleteEvent, ?_, ?_⟩
      · simp [HcsDidEventParser.fromBase64, hdel, deleteEventFromJsonTree]
      · intro msg hne _; exact absurd hdel hne
    · rcases hdisp : dispatchTry operation payload with e | ev
      · refine ⟨.empty, ?_, ?_⟩
        · simp [HcsDidEventParser.fromBase64, hdel, hdisp]
        · intro msg _ _; rfl
      · refine ⟨ev, ?_, ?_⟩
        · simp [HcsDidEventParser.fromBase64, hdel, hdisp]
        · intro msg _ hcontra; cases hcontra
  · by_cases hdel : operation = .DELETE
    · refine ⟨.deleteEvent, ?_, ?_⟩
      · simp [HcsDidEventParser.fromJson, hdel, deleteEventFromJsonTree]
      · intro msg hne _; exact absurd hdel hne
    · rcases hdisp : dispatchTry operation (some eventJson) with e | ev
      · refine ⟨.empty, ?_, ?_⟩
        · simp [HcsDidEventParser.fromJson, hdel, hdisp]
        · intro msg _ _; rfl
      · refine ⟨ev, ?_, ?_⟩
        · simp [HcsDidEventParser.fromJson, hdel, hdisp]
        · intro msg _ hcontra; cases hcontra

/-- Witness for C3: a CREATE payload whose outer decode failed, and a JSON
null payload whose member access throws, both degrade to the empty event. -/
theorem c3_witness :
    HcsDidEventParser.fromBase64 .CREATE none = .ok .empty ∧
    HcsDidEventParser.fromJson .CREATE .null = .ok .empty := by
  obtain ⟨⟨ev1, h1, h1e⟩, ⟨ev2, h2, h2e⟩⟩ := c3_parser_never_throws .CREATE none .null
  have e1 : ev1 = .empty := h1e "decode failure" (by decide) (by rfl)
  have e2 : ev2 = .empty :=
    h2e "TypeError: cannot read properties of null" (by decide) (by rfl)
  rw [e1] at h1
  rw [e2] at h2
  exact ⟨h1, h2⟩

/-! ## C5: event round-trip

getPublicKeyBase58ForSecp256k1 always stores the compressed 33-byte key,
while parsePublicKey feeds whatever it decodes into
compressSecp256k1PublicKey, which demands the 65-byte uncompressed form:
decoding any encoded Secp256k1 multibase event therefore throws instead of
reconstructing the event. -/

/-- A well-formed verification method event with a compressed Secp256k1
key in the EcdsaSecp256k1VerificationKey2020 format. -/
def c5FailingEvent : HcsDidCreateVerificationMethodEvent :=
  { id := "did:hedera:testnet:zAvU2AEh8ybRqNwHAM3CjbkjYaYHpt9oA1uugW9EVTg6_0.0.1#key-1"
  , type := "Secp256k1"
  , publicKeyFormat := ECDSA_SECP256K1_KEY_TYPE
  , controller := "did:hedera:testnet:zAvU2AEh8ybRqNwHAM3CjbkjYaYHpt9oA1uugW9EVTg6_0.0.1"
  , publicKey := ⟨.ecdsa, 2 :: List.replicate 32 7⟩ }

/-- C5 (code bug): the event serializes fine, but decoding the serialized
tree back through fromJsonTree throws the uncompressed-key error instead
of returning an equal event. -/
theorem c5_secp256k1_roundtrip_code_bug :
    c5FailingEvent.toJsonTree.isOk = true ∧
    c5FailingEvent.toJsonTree.bind (fun t =>
      HcsDidCreateVerificationMethodEvent.fromJsonTree
        ((jsField t "VerificationMethod").getD .null)) =
      .error "Invalid uncompressed Secp256k1 public key" := by
  constructor
  · decide
  · rfl

/-! ## Resolver (src/identity/hcs/did/hcs-did-event-message-resolver.ts)

MessageEnvelope lives outside src/; modelled from the spec: open() lazily
decodes the payload and returns the message or null, getSignature() is the
detached signature string used as the dedup key.  HcsDidMessage carries
operation, did and event; message validity rechecks the topic id. -/

/-- Model of the external @hashgraph/sdk TopicId (shard.realm.num). -/
structure TopicId where
  shard : Nat
  realm : Nat
  num : Nat
deriving DecidableEq

/-- The HCS DID message (operation, did, event); fields are optional, as
fromJsonTree can leave them undefined. -/
structure HcsDidMessage where
  operation : Option DidMethodOperation
  did : Option String
  event : Option HcsDidEventSum
deriving DecidableEq

/-- Modelled from the spec: MessageEnvelope couples the lazily-opened
message (null on decode failure) with the detached signature string. -/
structure MessageEnvelope where
  message : Option HcsDidMessage
  signature : String
deriving DecidableEq

/-- Envelope open(): the lazily decoded message or null. -/
def MessageEnvelope.open (envelope : MessageEnvelope) : Option HcsDidMessage :=
  envelope.message

/-- Envelope getSignature(). -/
def MessageEnvelope.getSignature (envelope : MessageEnvelope) : String :=
  envelope.signature

/-- Resolver state: the dedup list, the ordered result buffer, and the
last-arrival clock (milliseconds). -/
structure ResolverState where
  existingSignatures : List String
  messages : List MessageEnvelope
  lastMessageArrivalTime : Int
deriving DecidableEq

/-- Fresh resolver state at construction time. -/
def initialResolverState : ResolverState :=
  { existingSignatures := [], messages := [], lastMessageArrivalTime := 0 }

/-- matchesSearchCriteria: constant true in HcsDidEventMessageResolver. -/
def matchesSearchCriteria (_message : HcsDidMessage) : Bool := true

/-- handleMessage: update the arrival clock, drop null or non-matching
messages, drop already-seen signatures, else push signature and envelope. -/
def handleMessage (now : Int) (st : ResolverState) (envelope : MessageEnvelope) :
    ResolverState :=
  let st := { st with lastMessageArrivalTime := now }
  match envelope.open with
  | none => st
  | some message =>
    if !matchesSearchCriteria message then st
    else if st.existingSignatures.contains envelope.getSignature then st
    else
      { st with
        existingSignatures := st.existingSignatures ++ [envelope.getSignature]
        messages := st.messages ++ [envelope] }

/-- All arrivals of one subscription, in order, with their clock values. -/
def handleAll (st : ResolverState) (arrivals : List (Int × MessageEnvelope)) :
    ResolverState :=
  arrivals.foldl (fun s p => handleMessage p.1 s p.2) st

/-- The reset performed at the top of execute(): the dedup list is
emptied, the message buffer is left as it is. -/
def executeReset (st : ResolverState) : ResolverState :=
  { st with existingSignatures := [] }

/-- The accepted-envelope sequence the claim describes: keep each envelope
that opens to a non-null message and whose signature was not seen before,
in arrival order. -/
def firstSeenFilter (seen : List String) : List (Int × MessageEnvelope) → List MessageEnvelope
  | [] => []
  | (_, e) :: rest =>
    if e.open.isSome && !(seen.contains e.getSignature) then
      e :: firstSeenFilter (seen ++ [e.getSignature]) rest
    else
      firstSeenFilter seen rest

theorem handleAll_messages_eq :
    ∀ (arrivals : List (Int × MessageEnvelope)) (st : ResolverState),
      (handleAll st arrivals).messages =
        st.messages ++ firstSeenFilter st.existingSignatures arrivals ∧
      (handleAll st arrivals).existingSignatures =
        st.existingSignatures ++
          (firstSeenFilter st.existingSignatures arrivals).map MessageEnvelope.getSignature := by
  intro arrivals
  induction arrivals with
  | nil => intro st; simp [handleAll, firstSeenFilter]
  | cons p rest ih =>
    intro st
    rcases p with ⟨now, e⟩
    have hstep : handleAll st ((now, e) :: rest) = handleAll (handleMessage now st e) rest := rfl
    rcases hopen : e.open with _ | m
    · have hm : handleMessage now st e = { st with lastMessageArrivalTime := now } := by
        simp [handleMessage, hopen]
      have hfs : firstSeenFilter st.existingSignatures ((now, e) :: rest) =
          firstSeenFilter st.existingSignatures rest := by
        simp [firstSeenFilter, hopen]
      rw [hstep, hm, hfs]
      exact ih { st with lastMessageArrivalTime := now }
    · by_cases hseen : e.getSignature ∈ st.existingSignatures
      · have hm : handleMessage now st e = { st with lastMessageArrivalTime := now } := by
          simp [handleMessage, hopen, matchesSearchCriteria, hseen]
        have hfs : firstSeenFilter st.existingSignatures ((now, e) :: rest) =
            firstSeenFilter st.existingSignatures rest := by
          simp [firstSeenFilter, hopen, hseen]
        rw [hstep, hm, hfs]
        exact ih { st with lastMessageArrivalTime := now }
      · have hm : handleMessage now st e = { existingSignatures := st.existingSignatures ++ [e.getSignature], messages := st.messages ++ [e], lastMessageArrivalTime := now } := by
          simp [handleMessage, hopen, matchesSearchCriteria, hseen]
        have hfs : firstSeenFilter st.existingSignatures ((now, e) :: rest) =
            e :: firstSeenFilter (st.existingSignatures ++ [e.getSignature]) rest := by
          simp [firstSeenFilter, hopen, hseen]
        have hrec := ih { existingSignatures := st.existingSignatures ++ [e.getSignature], messages := st.messages ++ [e], lastMessageArrivalTime := now }
        rw [hstep, hm, hfs]
        constructor
        · rw [hrec.1]
          simp
        · rw [hrec.2]
          simp

theorem exists_mem_cons_iff_of_not {α : Type} (P : α → Prop) (x : α) (l : List α)
    (hx : ¬ P x) : (∃ p ∈ x :: l, P p) ↔ (∃ p ∈ l, P p) := by
  simp only [List.mem_cons]
  constructor
  · rintro ⟨q, hq | hq, hP⟩
    · subst hq; exact absurd hP hx
    · exact ⟨q, hq, hP⟩
  · rintro ⟨q, hq, hP⟩
    exact ⟨q, Or.inr hq, hP⟩

theorem firstSeenFilter_count :
    ∀ (arrivals : List (Int × MessageEnvelope)) (seen : List String) (sig : String),
      (firstSeenFilter seen arrivals).countP (fun e => e.getSignature == sig) =
        (if sig ∈ seen then 0
         else if ∃ p ∈ arrivals, p.2.getSignature = sig ∧ p.2.open.isSome = true then 1
         else 0) := by
  intro arrivals
  induction arrivals with
  | nil => intro seen sig; simp [firstSeenFilter]
  | cons p rest ih =>
    intro seen sig
    rcases p with ⟨now, e⟩
    by_cases hopen : e.open.isSome = true
    · by_cases hseen : e.getSignature ∈ seen
      · have hfs : firstSeenFilter seen ((now, e) :: rest) = firstSeenFilter seen rest := by
          simp [firstSeenFilter, hopen, hseen]
        rw [hfs, ih seen sig]
        by_cases hsig : e.getSignature = sig
        · have h1 : sig ∈ seen := hsig ▸ hseen
          simp [h1]
        · have hex := exists_mem_cons_iff_of_not
            (fun p : Int × MessageEnvelope => p.2.getSignature = sig ∧ p.2.open.isSome = true)
            (now, e) rest (fun hP => hsig hP.1)
          simp only [hex]
      · have hfs : firstSeenFilter seen ((now, e) :: rest) =
            e :: firstSeenFilter (seen ++ [e.getSignature]) rest := by
          simp [firstSeenFilter, hopen, hseen]
        rw [hfs, List.countP_cons, ih (seen ++ [e.getSignature]) sig]
        by_cases hsig : e.getSignature = sig
        · have h1 : sig ∉ seen := hsig ▸ hseen
          have h2 : sig ∈ seen ++ [e.getSignature] := by
            rw [List.mem_append]
            exact Or.inr (by simp [hsig])
          have hex : ∃ p ∈ (now, e) :: rest, p.2.getSignature = sig ∧ p.2.open.isSome = true :=
            ⟨(now, e), by simp, hsig, hopen⟩
          simp [h1, h2, hex, hsig]
          rw [if_pos hex]
        · have h2 : (sig ∈ seen ++ [e.getSignature]) ↔ sig ∈ seen := by
            rw [List.mem_append]
            constructor
            · intro h
              rcases h with h | h
              · exact h
              · have hh : sig = e.getSignature := by simpa using h
                exact absurd hh (fun hhh => hsig hhh.symm)
            · intro h; exact Or.inl h
          have hex := exists_mem_cons_iff_of_not
            (fun p : Int × MessageEnvelope => p.2.getSignature = sig ∧ p.2.open.isSome = true)
            (now, e) rest (fun hP => hsig hP.1)
          have hpe : (e.getSignature == sig) = false := by simp [hsig]
          simp only [h2, hex, hpe, Bool.false_eq_true, if_false]
          omega
    · have hopen2 : e.open.isSome = false := by simpa using hopen
      have hfs : firstSeenFilter seen ((now, e) :: rest) = firstSeenFilter seen rest := by
        simp [firstSeenFilter, hopen2]
      rw [hfs, ih seen sig]
      have hex := exists_mem_cons_iff_of_not
        (fun p : Int × MessageEnvelope => p.2.getSignature = sig ∧ p.2.open.isSome = true)
        (now, e) rest (fun hP => by rw [hP.2] at hopen2; cases hopen2)
      simp only [hex]

/-- C1: starting from a fresh execute run, the resolver keeps exactly the
envelopes that open to a non-null message and whose signature was not
already accepted, in arrival order; consequently any signature delivered
at least once acceptably (in particular twice, across poll cycles) occurs
exactly once in the final result set handed to the results handler. -/
theorem c1_resolver_dedup_first_seen_wins :
    ∀ (arrivals : List (Int × MessageEnvelope)),
      (handleAll initialResolverState arrivals).messages = firstSeenFilter [] arrivals ∧
      (∀ sig : String,
        (∃ p ∈ arrivals, p.2.getSignature = sig ∧ p.2.open.isSome = true) →
        (handleAll initialResolverState arrivals).messages.countP
          (fun e => e.getSignature == sig) = 1) := by
  intro arrivals
  have h := (handleAll_messages_eq arrivals initialResolverState).1
  constructor
  · simpa [initialResolverState] using h
  · intro sig hex
    have h2 : (handleAll initialResolverState arrivals).messages =
        firstSeenFilter [] arrivals := by
      simpa [initialResolverState] using h
    rw [h2, firstSeenFilter_count arrivals [] sig]
    simp [hex]

/-- A concrete envelope used by the C1 and C10 witnesses. -/
def envA : MessageEnvelope :=
  ⟨some ⟨some .CREATE, some "did:hedera:testnet:z_0.0.1", some .empty⟩, "sigA"⟩

/-- Witness for C1: the same envelope delivered in two poll cycles is kept
exactly once. -/
theorem c1_witness :
    (handleAll initialResolverState [(5, envA), (9, envA)]).messages = [envA] ∧
    (handleAll initialResolverState [(5, envA), (9, envA)]).messages.countP
      (fun e => e.getSignature == "sigA") = 1 := by
  have h := c1_resolver_dedup_first_seen_wins [(5, envA), (9, envA)]
  constructor
  · rw [h.1]; rfl
  · exact h.2 "sigA" ⟨(5, envA), by simp, rfl, rfl⟩

/-- One execute() run: reset the dedup list, then process the arrivals
(the messages buffer is not reset). -/
def executeRun (st : ResolverState) (arrivals : List (Int × MessageEnvelope)) :
    ResolverState :=
  handleAll (executeReset st) arrivals

/-- C10: execute() clears only the seen-signature list and leaves the
message buffer; re-running execute with the same envelope redelivered
appends it a second time, so the results handler sees it twice. -/
theorem c10_reexecute_duplicates :
    (∀ st : ResolverState, (executeReset st).messages = st.messages ∧
      (executeReset st).existingSignatures = []) ∧
    (∀ (env : MessageEnvelope) (t1 t2 : Int), env.open.isSome = true →
      (executeRun initialResolverState [(t1, env)]).messages = [env] ∧
      (executeRun (executeRun initialResolverState [(t1, env)]) [(t2, env)]).messages =
        [env, env]) := by
  constructor
  · intro st; exact ⟨rfl, rfl⟩
  · intro env t1 t2 hopen
    have hfs1 : firstSeenFilter ([] : List String) [(t1, env)] = [env] := by
      simp [firstSeenFilter, hopen]
    have hfs2 : firstSeenFilter ([] : List String) [(t2, env)] = [env] := by
      simp [firstSeenFilter, hopen]
    have h1 := (handleAll_messages_eq [(t1, env)] (executeReset initialResolverState)).1
    have hmsg1 : (executeRun initialResolverState [(t1, env)]).messages = [env] := by
      simpa [executeRun, executeReset, initialResolverState, hfs1] using h1
    refine ⟨hmsg1, ?_⟩
    have h2 := (handleAll_messages_eq [(t2, env)]
      (executeReset (executeRun initialResolverState [(t1, env)]))).1
    have hres : (executeReset (executeRun initialResolverState [(t1, env)])).existingSignatures
        = [] := rfl
    have hre : (executeReset (executeRun initialResolverState [(t1, env)])).messages = [env] :=
      hmsg1
    rw [hres, hfs2, hre] at h2
    simpa [executeRun] using h2

/-- Witness for C10: with the concrete envelope, the second run delivers
it twice. -/
theorem c10_witness :
    (executeRun (executeRun initialResolverState [(1, envA)]) [(2, envA)]).messages =
      [envA, envA] := by
  exact ((c10_reexecute_duplicates.2 envA 1 2 rfl).2)

/-! ## Idle-wait loop (waitOrFinish / finish)

One invocation of waitOrFinish is a pure step: given the current clock it
either reschedules the single wake-up timer (replacing any pending one)
or runs finish().  The second component lists the results-handler
invocations the step performs. -/

structure WaitState where
  lastMessageArrivalTime : Int
  noMoreMessagesTimeout : Int
  nextMessageArrivalTimeout : Option Int
  hasResultsHandler : Bool
  messages : List MessageEnvelope
deriving DecidableEq

/-- finish(): invoke the results handler (when registered) with the
accumulated list, and clear any pending wake-up. -/
def finishStep (st : WaitState) : WaitState × List (List MessageEnvelope) :=
  ({ st with nextMessageArrivalTimeout := none },
   if st.hasResultsHandler then [st.messages] else [])

/-- waitOrFinish: reschedule while timeDiff is less than or equal to the
timeout (the source clears the old timer and sets one for the remaining
time), finish only when timeDiff strictly exceeds it. -/
def waitOrFinishStep (now : Int) (st : WaitState) : WaitState × List (List MessageEnvelope) :=
  let timeDiff := now - st.lastMessageArrivalTime
  if timeDiff ≤ st.noMoreMessagesTimeout then
    ({ st with nextMessageArrivalTimeout := some (st.noMoreMessagesTimeout - timeDiff) }, [])
  else
    finishStep st

/-- The boundary state of the C2 counterexample: last arrival at 0,
timeout 30000, a registered handler, empty buffer, no pending wake-up. -/
def c2BoundaryState : WaitState := ⟨0, 30000, none, true, []⟩

/-- C2 counterexample: at elapsed time exactly equal to the timeout, the
claim says finish() is called, but the code reschedules a zero-delay
wake-up and performs no results-handler invocation in that call. -/
theorem c2_counterexample_boundary_reschedules :
    (30000 : Int) - 0 ≥ 30000 ∧
    waitOrFinishStep 30000 c2BoundaryState = (⟨0, 30000, some 0, true, []⟩, []) := by
  exact ⟨by norm_num, rfl⟩

/-- C2 (amended): when the elapsed time strictly exceeds the timeout,
finish() runs — the registered results handler is invoked exactly once
with the accumulated envelope list and the pending wake-up is cancelled;
when the elapsed time is less than or equal to the timeout (including
equality), a wake-up is rescheduled for the remaining time (zero at the
boundary), replacing any pending wake-up, and the handler is not called. -/
theorem c2_wait_or_finish_spec :
    ∀ (now : Int) (st : WaitState),
      (now - st.lastMessageArrivalTime > st.noMoreMessagesTimeout →
        waitOrFinishStep now st =
          ({ st with nextMessageArrivalTimeout := none },
            if st.hasResultsHandler then [st.messages] else []) ∧
        (st.hasResultsHandler = true → (waitOrFinishStep now st).2 = [st.messages])) ∧
      (now - st.lastMessageArrivalTime ≤ st.noMoreMessagesTimeout →
        waitOrFinishStep now st =
          ({ st with nextMessageArrivalTimeout := some (st.noMoreMessagesTimeout - (now - st.lastMessageArrivalTime)) }, [])) := by
  intro now st
  constructor
  · intro h
    have hneg : ¬ (now - st.lastMessageArrivalTime ≤ st.noMoreMessagesTimeout) := by omega
    constructor
    · simp [waitOrFinishStep, finishStep, hneg]
    · intro hh
      simp [waitOrFinishStep, finishStep, hneg, hh]
  · intro h
    simp [waitOrFinishStep, h]

/-- A pending-timer state used by the C2 witness. -/
def c2PendingState : WaitState := ⟨10000, 30000, some 5, true, [envA]⟩

/-- Witness for the amended C2 at concrete clocks: one finishing step that
delivers the buffer once and cancels the timer, one rescheduling step. -/
theorem c2_witness :
    waitOrFinishStep 40001 c2PendingState = (⟨10000, 30000, none, true, [envA]⟩, [[envA]]) ∧
    waitOrFinishStep 20000 c2PendingState = (⟨10000, 30000, some 20000, true, [envA]⟩, []) := by
  constructor
  · have h := ((c2_wait_or_finish_spec 40001 c2PendingState).1 (by norm_num [c2PendingState])).1
    simpa [c2PendingState] using h
  · have h := (c2_wait_or_finish_spec 20000 c2PendingState).2 (by norm_num [c2PendingState])
    simpa [c2PendingState] using h

/-! ## Identifier parsing (HcsDid.parseIdentifier, src/unnamed/part_002)

DidError (did-error.ts) is not under src/; modelled from the spec as a
message plus an error code.  TopicId.fromString is the external
@hashgraph/sdk parser, modelled as shard.realm.num digits; its exceptions
are not DidErrors, which the ThrownError sum keeps apart. -/

inductive DidErrorCode where
  | GENERIC
  | INVALID_DID_STRING
  | INVALID_NETWORK
deriving DecidableEq

/-- Modelled from the spec: the DidError carrier (message and code). -/
structure DidError where
  message : String
  code : DidErrorCode
deriving DecidableEq

/-- A thrown JS error: either a DidError or an error of an external
library. -/
inductive ThrownError where
  | didError (e : DidError)
  | external (msg : String)
deriving DecidableEq

def DidSyntax.DID_PREFIX : List Char := "did".toList

def DidSyntax.DID_METHOD_SEPARATOR : Char := ':'

def DidSyntax.DID_TOPIC_SEPARATOR : Char := '_'

def DidSyntax.HEDERA_NETWORK_MAINNET : List Char := "mainnet".toList

def DidSyntax.HEDERA_NETWORK_TESTNET : List Char := "testnet".toList

def DidSyntax.HEDERA_NETWORK_PREVIEWNET : List Char := "previewnet".toList

/-- DidSyntax.Method.HEDERA_HCS. -/
def DidSyntax.methodHederaHcs : List Char := "hedera".toList

def parseNatDigits (cs : List Char) : Except String Nat :=
  if cs ≠ [] ∧ cs.all Char.isDigit then
    .ok (cs.foldl (fun a c => a * 10 + (c.toNat - 48)) 0)
  else .error "failed to parse entity id"

/-- Models the external @hashgraph/sdk TopicId.fromString capability for
the shard.realm.num form. -/
def TopicId.fromString (s : List Char) : Except String TopicId :=
  match jsSplit '.' s with
  | [a, b, c] => do
    let shard ← parseNatDigits a
    let realm ← parseNatDigits b
    let num ← parseNatDigits c
    return ⟨shard, realm, num⟩
  | _ => .error "failed to parse entity id"

/-- How JS renders a possibly-undefined string piece in a message. -/
def jsShowSeg : Option (List Char) → String
  | none => "undefined"
  | some cs => String.mk cs

/-- Truthiness of a possibly-undefined string piece (empty is falsy). -/
def truthySeg : Option (List Char) → Bool
  | none => false
  | some [] => false
  | some (_ :: _) => true

/-- HcsDid.parseIdentifier: split at the topic separator, parse the topic
id, then check prefix, method, network and the 44-character key segment. -/
def HcsDid.parseIdentifier (identifier : List Char) :
    Except ThrownError (List Char × TopicId × List Char) :=
  let parts := jsSplit DidSyntax.DID_TOPIC_SEPARATOR identifier
  let didPart := parts.headD []
  match parts.get? 1 with
  | none => .error (.didError ⟨"DID string is invalid: topic ID is missing", .INVALID_DID_STRING⟩)
  | some topicIdPart =>
    if topicIdPart.isEmpty then
      .error (.didError ⟨"DID string is invalid: topic ID is missing", .INVALID_DID_STRING⟩)
    else
      match TopicId.fromString topicIdPart with
      | .error e => .error (.external e)
      | .ok topicId =>
        let didParts := jsSplit DidSyntax.DID_METHOD_SEPARATOR didPart
        if didParts.get? 0 ≠ some DidSyntax.DID_PREFIX then
          .error (.didError ⟨"DID string is invalid: invalid prefix.", .INVALID_DID_STRING⟩)
        else if didParts.get? 1 ≠ some DidSyntax.methodHederaHcs then
          .error (.didError ⟨"DID string is invalid: invalid method name: " ++
            jsShowSeg (didParts.get? 1), .INVALID_DID_STRING⟩)
        else
          match didParts.get? 2 with
          | none =>
            .error (.didError ⟨"DID string is invalid. Invalid Hedera network.", .INVALID_NETWORK⟩)
          | some networkName =>
            if networkName ≠ DidSyntax.HEDERA_NETWORK_MAINNET ∧
                networkName ≠ DidSyntax.HEDERA_NETWORK_TESTNET ∧
                networkName ≠ DidSyntax.HEDERA_NETWORK_PREVIEWNET then
              .error (.didError ⟨"DID string is invalid. Invalid Hedera network.", .INVALID_NETWORK⟩)
            else
              let didIdString := (didParts.get? 3).getD []
              if didIdString.length < 44 ∨ truthySeg (didParts.get? 4) = true then
                .error (.didError ⟨"DID string is invalid. ID holds incorrect format.",
                  .INVALID_DID_STRING⟩)
              else
                .ok (networkName, topicId, didIdString)

/-- C4: parseIdentifier throws a structural DidError when the topic
suffix is absent (topic ID missing), when the network token is not one of
mainnet/testnet/previewnet (with prefix, method and topic id otherwise
fine), and when the owner-key segment is shorter than 44 characters; a
successful parse always carries a valid network and a key segment of at
least 44 characters, so no partially-populated result is ever returned. -/
theorem c4_parse_identifier_structural_errors :
    ∀ identifier : List Char,
      ((((jsSplit '_' identifier).get? 1 = none) ∨
          ((jsSplit '_' identifier).get? 1 = some [])) →
        HcsDid.parseIdentifier identifier =
          .error (.didError ⟨"DID string is invalid: topic ID is missing",
            .INVALID_DID_STRING⟩)) ∧
      (∀ topicIdPart topicId networkName,
        (jsSplit '_' identifier).get? 1 = some topicIdPart →
        topicIdPart ≠ [] →
        TopicId.fromString topicIdPart = .ok topicId →
        (jsSplit ':' ((jsSplit '_' identifier).headD [])).get? 0 = some "did".toList →
        (jsSplit ':' ((jsSplit '_' identifier).headD [])).get? 1 = some "hedera".toList →
        (jsSplit ':' ((jsSplit '_' identifier).headD [])).get? 2 = some networkName →
        networkName ≠ "mainnet".toList →
        networkName ≠ "testnet".toList →
        networkName ≠ "previewnet".toList →
        HcsDid.parseIdentifier identifier =
          .error (.didError ⟨"DID string is invalid. Invalid Hedera network.",
            .INVALID_NETWORK⟩)) ∧
      (∀ topicIdPart topicId networkName,
        (jsSplit '_' identifier).get? 1 = some topicIdPart →
        topicIdPart ≠ [] →
        TopicId.fromString topicIdPart = .ok topicId →
        (jsSplit ':' ((jsSplit '_' identifier).headD [])).get? 0 = some "did".toList →
        (jsSplit ':' ((jsSplit '_' identifier).headD [])).get? 1 = some "hedera".toList →
        (jsSplit ':' ((jsSplit '_' identifier).headD [])).get? 2 = some networkName →
        (networkName = "mainnet".toList ∨ networkName = "testnet".toList ∨
          networkName = "previewnet".toList) →
        (((jsSplit ':' ((jsSplit '_' identifier).headD [])).get? 3).getD []).length < 44 →
        HcsDid.parseIdentifier identifier =
          .error (.didError ⟨"DID string is invalid. ID holds incorrect format.",
            .INVALID_DID_STRING⟩)) ∧
      (∀ networkName topicId didIdString,
        HcsDid.parseIdentifier identifier = .ok (networkName, topicId, didIdString) →
        (networkName = "mainnet".toList ∨ networkName = "testnet".toList ∨
          networkName = "previewnet".toList) ∧ 44 ≤ didIdString.length) := by
  intro identifier
  refine ⟨?_, ?_, ?_, ?_⟩
  · intro h
    unfold HcsDid.parseIdentifier
    simp only [DidSyntax.DID_TOPIC_SEPARATOR]
    rcases h with h | h
    · rw [h]
    · rw [h]
      simp [List.isEmpty]
  · intro topicIdPart topicId networkName h1 h2 h3 h4 h5 h6 h7 h8 h9
    unfold HcsDid.parseIdentifier
    simp only [DidSyntax.DID_TOPIC_SEPARATOR, DidSyntax.DID_METHOD_SEPARATOR]
    rw [h1]
    simp only []
    rw [if_neg (by simpa [List.isEmpty_iff] using h2), h3]
    simp only []
    rw [if_neg (fun hc => hc (by rw [h4]; rfl)), if_neg (fun hc => hc (by rw [h5]; rfl)), h6]
    simp only []
    rw [if_pos ⟨h7, h8, h9⟩]
  · intro topicIdPart topicId networkName h1 h2 h3 h4 h5 h6 h7 h8
    have hne : topicIdPart.isEmpty = false := by
      cases topicIdPart with
      | nil => exact absurd rfl h2
      | cons a l => rfl
    have hnot : ¬ (networkName ≠ DidSyntax.HEDERA_NETWORK_MAINNET ∧
        networkName ≠ DidSyntax.HEDERA_NETWORK_TESTNET ∧
        networkName ≠ DidSyntax.HEDERA_NETWORK_PREVIEWNET) := by
      rcases h7 with h | h | h
      · exact fun hc => hc.1 (by simpa [DidSyntax.HEDERA_NETWORK_MAINNET] using h)
      · exact fun hc => hc.2.1 (by simpa [DidSyntax.HEDERA_NETWORK_TESTNET] using h)
      · exact fun hc => hc.2.2 (by simpa [DidSyntax.HEDERA_NETWORK_PREVIEWNET] using h)
    unfold HcsDid.parseIdentifier
    simp only [DidSyntax.DID_TOPIC_SEPARATOR, DidSyntax.DID_METHOD_SEPARATOR]
    rw [h1]
    simp only []
    rw [if_neg (by simpa [List.isEmpty_iff] using h2), h3]
    simp only []
    rw [if_neg (fun hc => hc (by rw [h4]; rfl)), if_neg (fun hc => hc (by rw [h5]; rfl)), h6]
    simp only []
    rw [if_neg hnot, if_pos (Or.inl h8)]
  · intro networkName topicId didIdString hok
    unfold HcsDid.parseIdentifier at hok
    rcases hp1 : (jsSplit DidSyntax.DID_TOPIC_SEPARATOR identifier).get? 1 with _ | topicIdPart
    · simp only [hp1] at hok
      cases hok
    · simp only [hp1] at hok
      by_cases hemp : topicIdPart.isEmpty = true
      · rw [if_pos hemp] at hok; cases hok
      · rw [if_neg hemp] at hok
        rcases htid : TopicId.fromString topicIdPart with e | tid
        · simp only [htid] at hok
          cases hok
        · simp only [htid] at hok
          by_cases hpre : (jsSplit DidSyntax.DID_METHOD_SEPARATOR
              ((jsSplit DidSyntax.DID_TOPIC_SEPARATOR identifier).headD [])).get? 0 ≠
              some DidSyntax.DID_PREFIX
          · rw [if_pos hpre] at hok; cases hok
          · rw [if_neg hpre] at hok
            by_cases hmeth : (jsSplit DidSyntax.DID_METHOD_SEPARATOR
                ((jsSplit DidSyntax.DID_TOPIC_SEPARATOR identifier).headD [])).get? 1 ≠
                some DidSyntax.methodHederaHcs
            · rw [if_pos hmeth] at hok; cases hok
            · rw [if_neg hmeth] at hok
              rcases hnet : (jsSplit DidSyntax.DID_METHOD_SEPARATOR
                  ((jsSplit DidSyntax.DID_TOPIC_SEPARATOR identifier).headD [])).get? 2 with
                _ | net
              · simp only [hnet] at hok
                cases hok
              · simp only [hnet] at hok
                by_cases hbad : net ≠ DidSyntax.HEDERA_NETWORK_MAINNET ∧
                    net ≠ DidSyntax.HEDERA_NETWORK_TESTNET ∧
                    net ≠ DidSyntax.HEDERA_NETWORK_PREVIEWNET
                · rw [if_pos hbad] at hok; cases hok
                · rw [if_neg hbad] at hok
                  by_cases hlen : (((jsSplit DidSyntax.DID_METHOD_SEPARATOR
                      ((jsSplit DidSyntax.DID_TOPIC_SEPARATOR identifier).headD
                        [])).get? 3).getD []).length < 44 ∨
                      truthySeg ((jsSplit DidSyntax.DID_METHOD_SEPARATOR
                        ((jsSplit DidSyntax.DID_TOPIC_SEPARATOR identifier).headD
                          [])).get? 4) = true
                  · rw [if_pos hlen] at hok; cases hok
                  · rw [if_neg hlen] at hok
                    injection hok with hok
                    have hn : net = networkName := congrArg Prod.fst hok
                    have hd : (((jsSplit DidSyntax.DID_METHOD_SEPARATOR
                        ((jsSplit DidSyntax.DID_TOPIC_SEPARATOR identifier).headD
                          [])).get? 3).getD []) = didIdString :=
                      congrArg Prod.snd (congrArg Prod.snd hok)
                    constructor
                    · rw [← hn]
                      by_contra hcon
                      push_neg at hcon
                      exact hbad ⟨by simpa [DidSyntax.HEDERA_NETWORK_MAINNET] using hcon.1,
                        by simpa [DidSyntax.HEDERA_NETWORK_TESTNET] using hcon.2.1,
                        by simpa [DidSyntax.HEDERA_NETWORK_PREVIEWNET] using hcon.2.2⟩
                    · rw [← hd]
                      push_neg at hlen
                      omega

/-- A 44-character key segment for the C4 witness. -/
def aKey44 : String := "aaaaaaaaaaaaaaaaaaaaaaaaaaaaaaaaaaaaaaaaaaaa"

/-- Witness for C4 at concrete identifiers: a missing topic suffix, an
unknown network, a short key segment, and a fully valid identifier. -/
theorem c4_witness :
    HcsDid.parseIdentifier "did:hedera:testnet:abc".toList =
      .error (.didError ⟨"DID string is invalid: topic ID is missing",
        .INVALID_DID_STRING⟩) ∧
    HcsDid.parseIdentifier ("did:hedera:devnet:" ++ aKey44 ++ "_0.0.1").toList =
      .error (.didError ⟨"DID string is invalid. Invalid Hedera network.",
        .INVALID_NETWORK⟩) ∧
    HcsDid.parseIdentifier "did:hedera:testnet:short_0.0.1".toList =
      .error (.didError ⟨"DID string is invalid. ID holds incorrect format.",
        .INVALID_DID_STRING⟩) ∧
    (("mainnet".toList = "mainnet".toList ∨ "mainnet".toList = "testnet".toList ∨
        "mainnet".toList = "previewnet".toList) ∧ 44 ≤ aKey44.toList.length) := by
  refine ⟨?_, ?_, ?_, ?_⟩
  · exact (c4_parse_identifier_structural_errors _).1 (Or.inl (by decide))
  · exact (c4_parse_identifier_structural_errors _).2.1 "0.0.1".toList ⟨0, 0, 1⟩
      "devnet".toList (by decide) (by decide) rfl (by decide) (by decide) (by decide)
      (by decide) (by decide) (by decide)
  · exact (c4_parse_identifier_structural_errors _).2.2.1 "0.0.1".toList ⟨0, 0, 1⟩
      "testnet".toList (by decide) (by decide) rfl (by decide) (by decide) (by decide)
      (Or.inr (Or.inl (by decide))) (by decide)
  · exact (c4_parse_identifier_structural_errors
      ("did:hedera:mainnet:" ++ aKey44 ++ "_0.0.1").toList).2.2.2 "mainnet".toList
      ⟨0, 0, 1⟩ aKey44.toList rfl

/-! ## Topic listener (HcsDidTopicListener, src/unnamed/part_005)

Message validity (HcsDidMessage.isValid) parses the DID and compares the
embedded topic with the topic this listener is attached to; DidParser is
not under src/ and is modelled through HcsDid.parseIdentifier. -/

/-- isValid: null checks, DID parse (any throw means invalid), and the
topic comparison when a topic id is supplied. -/
def HcsDidMessage.isValid (message : HcsDidMessage) (didTopicId : Option TopicId) : Bool :=
  match message.did, message.event, message.operation with
  | some did, some _, some _ =>
    match HcsDid.parseIdentifier did.toList with
    | .error _ => false
    | .ok (_, topicId, _) =>
      match didTopicId with
      | some t => if t ≠ topicId then false else true
      | none => true
  | _, _, _ => false

/-- One mirror-node response entry, carrying the outcome of the external
base64 + JSON + inner-event decode chain and envelope construction (an
error models any exception raised while extracting). -/
structure MirrorResponse where
  extractResult : Except String MessageEnvelope

/-- Listener configuration: whether an error handler is registered, the
ignoreErrors flag (default false), the external filters, and the topic. -/
structure ListenerCfg where
  hasErrorHandler : Bool
  ignoreErrors : Bool
  filters : List (MirrorResponse → Bool)
  topicId : Option TopicId

/-- Observable outcome of handleResponse for one entry. -/
structure HandleOutcome where
  delivered : Option MessageEnvelope
  invalidReports : List String
  errorHandlerCalls : Nat
  thrown : Option String
deriving DecidableEq

/-- handleError: pass to the handler when registered, otherwise throw a
DidError unless ignoreErrors is set. -/
def handleErrorEffect (cfg : ListenerCfg) (msg : String) : Nat × Option String :=
  if cfg.hasErrorHandler then (1, none)
  else if !cfg.ignoreErrors then (0, some msg)
  else (0, none)

/-- extractMessage: on a decode exception the catch block calls
handleError and the function returns null (unless handleError threw). -/
def extractMessageStep (cfg : ListenerCfg) (response : MirrorResponse) :
    Option MessageEnvelope × (Nat × Option String) :=
  match response.extractResult with
  | .ok envelope => (some envelope, (0, none))
  | .error msg => (none, handleErrorEffect cfg msg)

/-- isMessageValid: a null open or a failed content check reports the
entry as invalid. -/
def isMessageValidStep (cfg : ListenerCfg) (envelope : MessageEnvelope) :
    Bool × Option String :=
  match envelope.open with
  | none => (false, some "Empty message received when opening envelope")
  | some message =>
    if !(message.isValid cfg.topicId) then (false, some "Message content validation failed.")
    else (true, none)

/-- handleResponse: filters, envelope extraction, validation, delivery;
an exception escaping extractMessage aborts the entry unprocessed. -/
def handleResponse (cfg : ListenerCfg) (response : MirrorResponse) : HandleOutcome :=
  if !(cfg.filters.all fun f => f response) then
    ⟨none, ["Message was rejected by external filter"], 0, none⟩
  else
    match extractMessageStep cfg response with
    | (none, (calls, some msg)) => ⟨none, [], calls, some msg⟩
    | (none, (calls, none)) => ⟨none, ["Extracting envelope from the response failed"], calls, none⟩
    | (some envelope, (calls, _)) =>
      match isMessageValidStep cfg envelope with
      | (true, _) => ⟨some envelope, [], calls, none⟩
      | (false, report) => ⟨none, report.toList, calls, none⟩

/-- A listener in its default configuration: no error handler registered,
ignoreErrors false, no filters. -/
def c8DefaultCfg : ListenerCfg := ⟨false, false, [], none⟩

/-- A response whose envelope extraction raises a decode exception. -/
def c8BadResponse : MirrorResponse := ⟨.error "Unexpected token in JSON"⟩

/-- C8 counterexample: in the default configuration a decode exception is
re-thrown out of the poll-cycle handler and the entry is never reported
through the invalid-message path. -/
theorem c8_counterexample_default_config_rethrows :
    handleResponse c8DefaultCfg c8BadResponse =
      ⟨none, [], 0, some "Unexpected token in JSON"⟩ ∧
    (handleResponse c8DefaultCfg c8BadResponse).invalidReports = [] ∧
    (handleResponse c8DefaultCfg c8BadResponse).thrown ≠ none := by
  refine ⟨rfl, rfl, ?_⟩
  intro h
  cases h

/-- C8 (amended): provided an error handler is registered or ignoreErrors
is set, every exception raised while extracting the envelope leads to the
entry being reported through the invalid-message path, nothing is
delivered, and nothing is re-thrown; without either, the exception
propagates to the caller. -/
theorem c8_extract_error_reported_not_rethrown :
    ∀ (cfg : ListenerCfg) (response : MirrorResponse) (msg : String),
      response.extractResult = .error msg →
      (cfg.filters.all fun f => f response) = true →
      (cfg.hasErrorHandler = true ∨ cfg.ignoreErrors = true) →
      handleResponse cfg response =
        ⟨none, ["Extracting envelope from the response failed"],
          if cfg.hasErrorHandler then 1 else 0, none⟩ := by
  intro cfg response msg herr hfilters hhandled
  unfold handleResponse
  rw [hfilters]
  simp only [Bool.not_true, Bool.false_eq_true, if_false]
  unfold extractMessageStep
  rw [herr]
  unfold handleErrorEffect
  rcases hh : cfg.hasErrorHandler with _ | _
  · rcases hhandled with h | h
    · rw [hh] at h; cases h
    · simp [hh, h]
  · simp [hh]

/-- Witness for the amended C8: with an error handler registered, the
failing entry is reported invalid, the handler runs once, nothing is
thrown. -/
theorem c8_witness :
    handleResponse ⟨true, false, [], none⟩ c8BadResponse =
      ⟨none, ["Extracting envelope from the response failed"], 1, none⟩ := by
  have h := c8_extract_error_reported_not_rethrown ⟨true, false, [], none⟩ c8BadResponse
    "Unexpected token in JSON" rfl rfl (Or.inl rfl)
  simpa using h
